import Mathlib

/-!
# Emissions service: the partial-cache orchestration engine

A shallow embedding of `internal/service/measure_service.go` (key derivation,
validation, cache partitioning, resolver call, write-back and aggregation),
of `internal/errors/errors.go`, of `internal/models/measure.go`, of
`internal/client/scope3/types.go` and of
`internal/repository/cache/in_memory_cache.go`.

Conventions of the embedding.

* `float64` is not fixed: every definition is parametric in a carrier `F`
  of which only `0` and `+` are used, exactly the two operations the source
  performs on emissions. Every theorem therefore holds for each model of
  float64 arithmetic.
* Go `int` is `Int`; no arithmetic is performed on it by the code modelled.
* An `error` value is a `GoError`; `GoError.nil` is the nil error.
* The two collaborators of `GetMeasure` (the `CacheRepository` and the
  `Scope3Client` interfaces) are parameters. Each call made through one of
  them is recorded, in program order, in a trace of `Event`s.
* A Go run-time panic (index out of range, nil dereference) is the outcome
  `Outcome.panic`.
* A call is taken in isolation: no other request touches the store while it
  runs and the clock of the store does not advance during it.
* The string of `uuid.New().String()` is an argument of `GetMeasure`; the
  `context.Context` is only handed on to the resolver and is left out.
* The store that `EmissionsCache` wraps belongs to a third-party library; its
  model follows the Cache Store contract of the specification.
-/

/-! ## internal/errors -/

namespace errors

/-- The `ErrorType` enumeration (`iota` order: Internal, Validation, External). -/
inductive ErrorType where
  | ErrorTypeInternal
  | ErrorTypeValidation
  | ErrorTypeExternal
  deriving DecidableEq

/-- A Go `error` value: nil, a `*ServiceError` (fields `Type`, here `Typ`, `Message`,
`Err`), or an error of any other dynamic type, identified by its text. -/
inductive GoError where
  | nil
  | other (text : String)
  | ServiceError (Typ : ErrorType) (Message : String) (Err : GoError)
  deriving DecidableEq

/-- Constructor `NewInternalError`. -/
def NewInternalError (message : String) (err : GoError) : GoError :=
  GoError.ServiceError ErrorType.ErrorTypeInternal message err

/-- Constructor `NewValidationError`; the wrapped error is left nil. -/
def NewValidationError (message : String) : GoError :=
  GoError.ServiceError ErrorType.ErrorTypeValidation message GoError.nil

/-- Constructor `NewExternalError`. -/
def NewExternalError (message : String) (err : GoError) : GoError :=
  GoError.ServiceError ErrorType.ErrorTypeExternal message err

/-- The error is a `*ServiceError` of the given type. -/
def hasType (t : ErrorType) : GoError → Bool
  | GoError.ServiceError ty _ _ => decide (ty = t)
  | _ => false

/-- The constant `http.StatusBadRequest`. -/
def StatusBadRequest : Int := 400

/-- The constant `http.StatusInternalServerError`. -/
def StatusInternalServerError : Int := 500

/-- The constant `http.StatusServiceUnavailable`. -/
def StatusServiceUnavailable : Int := 503

/-- Function `ToHTTPError`: the status code and the message for an error. -/
def ToHTTPError : GoError → Int × String
  | GoError.ServiceError ty message _ =>
    match ty with
    | ErrorType.ErrorTypeValidation => (StatusBadRequest, message)
    | ErrorType.ErrorTypeExternal => (StatusServiceUnavailable, "External service error")
    | _ => (StatusInternalServerError, "Internal server error")
  | _ => (StatusInternalServerError, "Unknown error")

end errors

/-! ## internal/models and internal/client/scope3 -/

namespace models

/-- A row of the public request (`models.MeasureRow`). -/
structure MeasureRow where
  Country : String
  Channel : String
  Impressions : Int
  InventoryID : String
  UTCDatetime : String
  IsPriority : Bool
  deriving DecidableEq

/-- The public request (`models.MeasureRequest`). -/
structure MeasureRequest where
  Rows : List MeasureRow
  deriving DecidableEq

/-- A row of the public response (`models.MeasureRowResponse`). -/
structure MeasureRowResponse (F : Type) where
  PropertyID : Int
  PropertyName : String
  TotalEmissions : F
  Cached : Bool
  InventoryCoverage : String
  deriving DecidableEq

/-- The public response (`models.MeasureResponse`). -/
structure MeasureResponse (F : Type) where
  RequestID : String
  TotalEmissions : F
  Rows : List (MeasureRowResponse F)
  deriving DecidableEq

end models

namespace scope3

/-- A row sent to the resolver (`scope3.MeasureRow`). -/
structure MeasureRow where
  Country : String
  Channel : String
  Impressions : Int
  InventoryID : String
  UTCDatetime : String
  deriving DecidableEq

/-- The resolver request (`scope3.MeasureRequest`). -/
structure MeasureRequest where
  Rows : List MeasureRow
  IncludeRows : Bool
  Latest : Bool
  Fields : String
  deriving DecidableEq

/-- Metadata of a resolved record (`scope3.InternalData`). -/
structure InternalData where
  PropertyID : Int
  PropertyName : String
  deriving DecidableEq

/-- A resolved emissions record (`scope3.MeasureRowResponse`). -/
structure MeasureRowResponse (F : Type) where
  TotalEmissions : F
  Internal : InternalData
  InventoryCoverage : String
  deriving DecidableEq

/-- The resolver response (`scope3.MeasureResponse`). -/
structure MeasureResponse (F : Type) where
  RequestID : String
  TotalEmissions : F
  Rows : List (MeasureRowResponse F)
  deriving DecidableEq

end scope3

/-! ## Go maps -/

namespace gomap

/-- Assignment `m[k] = v` on a Go map kept as an association list with
unique keys. -/
def set {V : Type} (m : List (String × V)) (k : String) (v : V) : List (String × V) :=
  (k, v) :: m.filter (fun p => p.1 != k)

/-- Lookup `v, ok := m[k]`. -/
def get {V : Type} (m : List (String × V)) (k : String) : Option V :=
  m.lookup k

end gomap

/-! ## internal/service -/

namespace service

open errors

/-- A value held by the cache, of static type `interface{}`: either a
`scope3.MeasureRowResponse` or a value of some other dynamic type. -/
inductive CacheValue (F : Type) where
  | record (r : scope3.MeasureRowResponse F)
  | other (text : String)
  deriving DecidableEq

/-- The `CacheRepository` interface over a store state `σ`. `Get` reads the
state without changing it, as both implementations in the repository do. -/
structure CacheRepository (σ : Type) (F : Type) where
  Set : σ → String → CacheValue F → Bool → σ
  Get : σ → String → Option (CacheValue F)

/-- The `Scope3Client` interface: the pair `(*MeasureResponse, error)` that
`GetEmissions` returns for a request; `none` is the nil pointer. -/
structure Scope3Client (F : Type) where
  GetEmissions : scope3.MeasureRequest → Option (scope3.MeasureResponse F) × GoError

/-- One call made by `GetMeasure` through one of its two collaborators. -/
inductive Event (F : Type) where
  | cacheGet (key : String)
  | cacheSet (key : String) (value : CacheValue F) (isPriority : Bool)
  | resolve (req : scope3.MeasureRequest)
  deriving DecidableEq

/-- What a call of `GetMeasure` does: it returns `(*MeasureResponse, error)`
or panics. -/
inductive Outcome (F : Type) where
  | returned (resp : Option (models.MeasureResponse F)) (err : GoError)
  | panic
  deriving DecidableEq

/-- The outcome of a call together with the store it leaves and the calls it
made. -/
structure Result (σ : Type) (F : Type) where
  out : Outcome F
  store : σ
  trace : List (Event F)

/-- Function `generateCacheKey`: `fmt.Sprintf("%s-%s-%d-%s", ...)`. -/
def generateCacheKey (row : models.MeasureRow) : String :=
  row.Country ++ "-" ++ row.Channel ++ "-" ++ toString row.Impressions ++ "-" ++ row.InventoryID

/-- Function `sumEmissions`: the loop `total += row.TotalEmissions` from `0.0`. -/
def sumEmissions {F : Type} [Zero F] [Add F] (rows : List (models.MeasureRowResponse F)) : F :=
  rows.foldl (fun total row => total + row.TotalEmissions) 0

/-- The validation loop of `GetMeasure`, from row index `i` on: the error of
the first failing check, or nil. -/
def validateRows : Nat → List models.MeasureRow → GoError
  | _, [] => GoError.nil
  | i, row :: rest =>
    if row.Country = "" then
      NewValidationError ("country is required for row " ++ toString i)
    else if row.Channel = "" then
      NewValidationError ("channel is required for row " ++ toString i)
    else if row.Impressions ≤ 0 then
      NewValidationError ("impressions must be positive for row " ++ toString i)
    else if row.InventoryID = "" then
      NewValidationError ("inventoryId is required for row " ++ toString i)
    else validateRows (i + 1) rest

/-- The loop that fills `originalRowsMap`. -/
def buildOriginalRowsMap (rows : List models.MeasureRow) : List (String × models.MeasureRow) :=
  rows.foldl (fun m row => gomap.set m (generateCacheKey row) row) []

/-- The response row emitted for a cache hit. -/
def hitRow {F : Type} (cachedRow : scope3.MeasureRowResponse F) : models.MeasureRowResponse F :=
  { PropertyID := cachedRow.Internal.PropertyID
    PropertyName := cachedRow.Internal.PropertyName
    TotalEmissions := cachedRow.TotalEmissions
    Cached := true
    InventoryCoverage := "" }

/-- The resolver row prepared for a request row that is not cached. -/
def toUncached (row : models.MeasureRow) : scope3.MeasureRow :=
  { Country := row.Country
    Channel := row.Channel
    Impressions := row.Impressions
    InventoryID := row.InventoryID
    UTCDatetime := row.UTCDatetime }

/-- State of the cache-check loop: `modelRows`, `uncachedRows` and the calls
made so far. -/
structure Partition (F : Type) where
  modelRows : List (models.MeasureRowResponse F)
  uncachedRows : List scope3.MeasureRow
  trace : List (Event F)

/-- The cache-check loop of `GetMeasure`. -/
def checkCache {σ F : Type} (cache : CacheRepository σ F) (s : σ) :
    List models.MeasureRow → Partition F → Partition F
  | [], acc => acc
  | row :: rest, acc =>
    let key := generateCacheKey row
    match cache.Get s key with
    | some (CacheValue.record cachedRow) =>
      checkCache cache s rest
        { modelRows := acc.modelRows ++ [hitRow cachedRow]
          uncachedRows := acc.uncachedRows
          trace := acc.trace ++ [Event.cacheGet key] }
    | _ =>
      checkCache cache s rest
        { modelRows := acc.modelRows
          uncachedRows := acc.uncachedRows ++ [toUncached row]
          trace := acc.trace ++ [Event.cacheGet key] }

/-- The response row emitted for a resolved record. -/
def apiRowResponse {F : Type} [Zero F] (apiRow : scope3.MeasureRowResponse F) :
    models.MeasureRowResponse F :=
  if apiRow.InventoryCoverage = "missing" then
    { PropertyID := 0
      PropertyName := ""
      TotalEmissions := 0
      Cached := false
      InventoryCoverage := "missing" }
  else
    { PropertyID := apiRow.Internal.PropertyID
      PropertyName := apiRow.Internal.PropertyName
      TotalEmissions := apiRow.TotalEmissions
      Cached := false
      InventoryCoverage := "" }

/-- How the write-back loop ended. -/
inductive LoopExit where
  | done
  | failed (err : GoError)
  | panicked
  deriving DecidableEq

/-- State of the write-back loop. -/
structure WriteBack (σ : Type) (F : Type) where
  exit : LoopExit
  store : σ
  modelRows : List (models.MeasureRowResponse F)
  trace : List (Event F)

/-- The key rebuilt from an uncached-batch row. -/
def uncachedKey (uncachedRow : scope3.MeasureRow) : String :=
  generateCacheKey
    { Country := uncachedRow.Country
      Channel := uncachedRow.Channel
      Impressions := uncachedRow.Impressions
      InventoryID := uncachedRow.InventoryID
      UTCDatetime := ""
      IsPriority := false }

/-- The loop `for i, apiRow := range apiResponse.Rows`, from index `i` on. -/
def processRows {σ F : Type} [Zero F] (cache : CacheRepository σ F)
    (originalRowsMap : List (String × models.MeasureRow))
    (uncachedRows : List scope3.MeasureRow) :
    Nat → List (scope3.MeasureRowResponse F) → σ → List (models.MeasureRowResponse F) →
      List (Event F) → WriteBack σ F
  | _, [], s, modelRows, tr =>
    { exit := LoopExit.done, store := s, modelRows := modelRows, trace := tr }
  | i, apiRow :: rest, s, modelRows, tr =>
    match uncachedRows.get? i with
    | none => { exit := LoopExit.panicked, store := s, modelRows := modelRows, trace := tr }
    | some uncachedRow =>
      let key := uncachedKey uncachedRow
      match gomap.get originalRowsMap key with
      | none =>
        { exit := LoopExit.failed
            (NewInternalError "cache key mismatch"
              (GoError.other ("could not find original row for key: " ++ key)))
          store := s, modelRows := modelRows, trace := tr }
      | some originalRow =>
        processRows cache originalRowsMap uncachedRows (i + 1) rest
          (cache.Set s key (CacheValue.record apiRow) originalRow.IsPriority)
          (modelRows ++ [apiRowResponse apiRow])
          (tr ++ [Event.cacheSet key (CacheValue.record apiRow) originalRow.IsPriority])

/-- Method `GetMeasure`. The argument `requestID` is the string that
`uuid.New().String()` yields in this call. -/
def GetMeasure {σ F : Type} [Zero F] [Add F] (cache : CacheRepository σ F)
    (client : Scope3Client F) (requestID : String) (s : σ) (req : models.MeasureRequest) :
    Result σ F :=
  if req.Rows.length = 0 then
    { out := Outcome.returned none (NewValidationError "no rows provided in request")
      store := s, trace := [] }
  else
    match validateRows 0 req.Rows with
    | GoError.nil =>
      let originalRowsMap := buildOriginalRowsMap req.Rows
      let p := checkCache cache s req.Rows { modelRows := [], uncachedRows := [], trace := [] }
      if p.uncachedRows.length = 0 then
        { out := Outcome.returned
            (some { RequestID := requestID
                    TotalEmissions := sumEmissions p.modelRows
                    Rows := p.modelRows }) GoError.nil
          store := s, trace := p.trace }
      else
        let apiReq : scope3.MeasureRequest :=
          { Rows := p.uncachedRows, IncludeRows := false, Latest := false, Fields := "" }
        let tr := p.trace ++ [Event.resolve apiReq]
        match client.GetEmissions apiReq with
        | (apiResponse, GoError.nil) =>
          match apiResponse with
          | none => { out := Outcome.panic, store := s, trace := tr }
          | some apiResponse =>
            let w := processRows cache originalRowsMap p.uncachedRows 0 apiResponse.Rows s
              p.modelRows tr
            match w.exit with
            | LoopExit.done =>
              { out := Outcome.returned
                  (some { RequestID := requestID
                          TotalEmissions := sumEmissions w.modelRows
                          Rows := w.modelRows }) GoError.nil
                store := w.store, trace := w.trace }
            | LoopExit.failed err =>
              { out := Outcome.returned none err, store := w.store, trace := w.trace }
            | LoopExit.panicked => { out := Outcome.panic, store := w.store, trace := w.trace }
        | (_, err) =>
          { out := Outcome.returned none
              (NewExternalError "failed to fetch emissions data from Scope3" err)
            store := s, trace := tr }
    | err => { out := Outcome.returned none err, store := s, trace := [] }

/-- A row fails one of the four checks of the validation loop. -/
def rowInvalid (row : models.MeasureRow) : Prop :=
  row.Country = "" ∨ row.Channel = "" ∨ row.Impressions ≤ 0 ∨ row.InventoryID = ""

instance (row : models.MeasureRow) : Decidable (rowInvalid row) := by
  unfold rowInvalid; infer_instance

/-- The call returned no response and a `*ServiceError` of type `t`. -/
def failsWith {F : Type} (t : ErrorType) : Outcome F → Bool
  | Outcome.returned none err => hasType t err
  | _ => false

/-- The request row misses the cache: `Get` finds nothing under its key, or
finds a value that is not a `scope3.MeasureRowResponse`. -/
def isMiss {σ F : Type} (cache : CacheRepository σ F) (s : σ) (row : models.MeasureRow) : Bool :=
  match cache.Get s (generateCacheKey row) with
  | some (CacheValue.record _) => false
  | _ => true

/-- The response rows of the request rows that hit the cache, in request order. -/
def hitRows {σ F : Type} (cache : CacheRepository σ F) (s : σ) (rows : List models.MeasureRow) :
    List (models.MeasureRowResponse F) :=
  rows.filterMap (fun row =>
    match cache.Get s (generateCacheKey row) with
    | some (CacheValue.record cachedRow) => some (hitRow cachedRow)
    | _ => none)

/-- The uncached batch: the request rows that miss the cache, in request order. -/
def missRows {σ F : Type} (cache : CacheRepository σ F) (s : σ) (rows : List models.MeasureRow) :
    List scope3.MeasureRow :=
  (rows.filter (fun row => isMiss cache s row)).map toUncached

/-- The priority flag that the write-back loop reads for a key, the one of
`originalRowsMap[key]`. -/
def priorityOf (originalRowsMap : List (String × models.MeasureRow)) (key : String) : Bool :=
  match gomap.get originalRowsMap key with
  | some originalRow => originalRow.IsPriority
  | none => false

/-- The arguments of the `Set` calls of the write-back loop for uncached rows
paired with resolver records. -/
def writesOf {F : Type} (originalRowsMap : List (String × models.MeasureRow))
    (pairs : List (scope3.MeasureRow × scope3.MeasureRowResponse F)) :
    List (String × CacheValue F × Bool) :=
  pairs.map (fun p =>
    (uncachedKey p.1, CacheValue.record p.2, priorityOf originalRowsMap (uncachedKey p.1)))

/-- The store after a sequence of `Set` calls. -/
def applyWrites {σ F : Type} (cache : CacheRepository σ F) (s : σ)
    (ws : List (String × CacheValue F × Bool)) : σ :=
  ws.foldl (fun s w => cache.Set s w.1 w.2.1 w.2.2) s

/-- The request that `GetMeasure` hands to the resolver for an uncached batch:
only `Rows` is set. -/
def resolverRequest (uncachedRows : List scope3.MeasureRow) : scope3.MeasureRequest :=
  { Rows := uncachedRows, IncludeRows := false, Latest := false, Fields := "" }

/-- The cache lookups of the cache-check loop, one per request row, in order. -/
def lookupEvents {F : Type} (rows : List models.MeasureRow) : List (Event F) :=
  rows.map (fun row => Event.cacheGet (generateCacheKey row))

/-- The request is non-empty and every row passes the four checks. -/
def validRequest (req : models.MeasureRequest) : Prop :=
  req.Rows ≠ [] ∧ ∀ row ∈ req.Rows, ¬ rowInvalid row

instance (req : models.MeasureRequest) : Decidable (validRequest req) := by
  unfold validRequest; infer_instance

/-- The originating request row of a key: the last row of the request whose
key it is. -/
def originatingRow (rows : List models.MeasureRow) (key : String) : Option models.MeasureRow :=
  rows.reverse.find? (fun row => decide (generateCacheKey row = key))

/-- The priority flag of the originating request row of a key. -/
def originatingFlag (rows : List models.MeasureRow) (key : String) : Bool :=
  match originatingRow rows key with
  | some row => row.IsPriority
  | none => false

/-- The decimal numeral of a natural number, from its base-ten digits: most
significant digit first, and `0` for zero. -/
def decimalNat (n : Nat) : String :=
  if n = 0 then "0" else String.mk ((Nat.digits 10 n).reverse.map Nat.digitChar)

/-- The decimal numeral of an integer: a minus sign before the numeral of the
absolute value when it is negative. -/
def decimal (n : Int) : String :=
  if n < 0 then "-" ++ decimalNat n.natAbs else decimalNat n.natAbs

/-- The error that a call returns; nil when it panics. -/
def returnedError {F : Type} : Outcome F → GoError
  | Outcome.returned _ err => err
  | Outcome.panic => GoError.nil

/-- The text with which the validation loop names the first failing check of
a row, in the order country, channel, impressions, inventoryId. -/
def firstFailure (row : models.MeasureRow) : String :=
  if row.Country = "" then "country is required"
  else if row.Channel = "" then "channel is required"
  else if row.Impressions ≤ 0 then "impressions must be positive"
  else "inventoryId is required"

/-- The string contains no `-` character. -/
def noDash (str : String) : Prop := '-' ∉ str.data

instance (str : String) : Decidable (noDash str) := by
  unfold noDash; infer_instance

/-- The number that a list of decimal digit characters denotes, most
significant digit first. -/
def decimalValue (cs : List Char) : Nat :=
  cs.foldl (fun acc c => 10 * acc + (c.toNat - 48)) 0

/-- The characters of the decimal numeral of a natural number. -/
def natChars (n : Nat) : List Char :=
  if n = 0 then ['0'] else (Nat.digits 10 n).reverse.map Nat.digitChar

/-- The arguments of the `Set` calls that pair uncached row `i` with resolver
record `i`: the key rebuilt from the row, the record as it came, and the
priority flag of the originating request row of that key. -/
def pairedWrites {F : Type} (rows : List models.MeasureRow)
    (uncachedRows : List scope3.MeasureRow) (apiRows : List (scope3.MeasureRowResponse F)) :
    List (String × CacheValue F × Bool) :=
  List.zipWith (fun u a =>
    (uncachedKey u, CacheValue.record a, originatingFlag rows (uncachedKey u)))
    uncachedRows apiRows

/-- The resolver calls recorded in a trace. -/
def resolverCalls {F : Type} (tr : List (Event F)) : List scope3.MeasureRequest :=
  tr.filterMap (fun e => match e with | Event.resolve req => some req | _ => none)

/-- The cache writes recorded in a trace. -/
def cacheWrites {F : Type} (tr : List (Event F)) : List (String × CacheValue F × Bool) :=
  tr.filterMap (fun e => match e with | Event.cacheSet k v p => some (k, v, p) | _ => none)

/-- The cache lookups recorded in a trace. -/
def cacheLookups {F : Type} (tr : List (Event F)) : List String :=
  tr.filterMap (fun e => match e with | Event.cacheGet k => some k | _ => none)

end service

/-! ## internal/repository/cache -/

namespace gocache

/-- Modelled from the spec: the expiry class of an entry of the store that
`EmissionsCache` wraps (the third-party go-cache library, whose code is not
part of the repository): `Permanent`, or `Timed` with the instant at which
the entry expires. -/
inductive Expiry where
  | Permanent
  | Timed (deadline : Int)
  deriving DecidableEq

/-- Modelled from the spec: a cache entry of the wrapped store, a value with
its expiry class. -/
structure Item (F : Type) where
  Object : service.CacheValue F
  Expiration : Expiry
  deriving DecidableEq

/-- Modelled from the spec: the wrapped store, with its default TTL, the
current instant of its clock and its entries (time in nanoseconds). -/
structure Cache (F : Type) where
  defaultExpiration : Int
  now : Int
  items : List (String × Item F)

/-- The constant `cache.DefaultExpiration` of the library. -/
def DefaultExpiration : Int := 0

/-- The constant `cache.NoExpiration` of the library. -/
def NoExpiration : Int := -1

/-- Modelled from the spec: `set` inserts or overwrites the entry of `k`;
the entry is permanent for `NoExpiration`, timed by the default TTL for
`DefaultExpiration`, and timed by `d` otherwise, counted from now. -/
def Cache.Set {F : Type} (c : Cache F) (k : String) (x : service.CacheValue F) (d : Int) :
    Cache F :=
  let e : Expiry :=
    if d = NoExpiration then Expiry.Permanent
    else if d = DefaultExpiration then Expiry.Timed (c.now + c.defaultExpiration)
    else Expiry.Timed (c.now + d)
  { c with items := gomap.set c.items k { Object := x, Expiration := e } }

/-- Modelled from the spec: `get` returns the current value if present and
not expired, and absent otherwise (the expiry check is made on read). -/
def Cache.Get {F : Type} (c : Cache F) (k : String) : Option (service.CacheValue F) :=
  match gomap.get c.items k with
  | none => none
  | some item =>
    match item.Expiration with
    | Expiry.Permanent => some item.Object
    | Expiry.Timed deadline => if c.now < deadline then some item.Object else none

/-- Modelled from the spec: the store when its clock reads `t`; the entries
are left as they are, no sweep has run. -/
def Cache.atTime {F : Type} (c : Cache F) (t : Int) : Cache F :=
  { c with now := t }

/-- Modelled from the spec: one run of the background sweeper, which removes
the timed entries whose TTL has elapsed and never a permanent entry. -/
def Cache.DeleteExpired {F : Type} (c : Cache F) : Cache F :=
  { c with items := c.items.filter (fun p =>
      match p.2.Expiration with
      | Expiry.Permanent => true
      | Expiry.Timed deadline => decide (c.now < deadline)) }

end gocache

namespace cache

/-- The struct `EmissionsCache`. -/
structure EmissionsCache (F : Type) where
  store : gocache.Cache F

/-- Method `EmissionsCache.Set`. -/
def EmissionsCache.Set {F : Type} (ec : EmissionsCache F) (key : String)
    (value : service.CacheValue F) (isPriority : Bool) : EmissionsCache F :=
  let ttl := if isPriority then gocache.NoExpiration else gocache.DefaultExpiration
  { store := ec.store.Set key value ttl }

/-- Method `EmissionsCache.Get`. -/
def EmissionsCache.Get {F : Type} (ec : EmissionsCache F) (key : String) :
    Option (service.CacheValue F) :=
  ec.store.Get key

/-- The `EmissionsCache` as the `CacheRepository` handed to the service. -/
def EmissionsCache.repository (F : Type) : service.CacheRepository (EmissionsCache F) F :=
  { Set := EmissionsCache.Set, Get := EmissionsCache.Get }

/-- The value that the store holds under a key, whatever its expiry. -/
def EmissionsCache.stored {F : Type} (key : String) (ec : EmissionsCache F) :
    Option (service.CacheValue F) :=
  (gomap.get ec.store.items key).map (fun item => item.Object)

/-- The cache when the clock of its store reads `t`. -/
def EmissionsCache.atTime {F : Type} (ec : EmissionsCache F) (t : Int) : EmissionsCache F :=
  { store := ec.store.atTime t }

/-- The cache after one run of the sweeper of its store. -/
def EmissionsCache.swept {F : Type} (ec : EmissionsCache F) : EmissionsCache F :=
  { store := ec.store.DeleteExpired }

end cache

/-! ## Scenarios

Concrete requests, stores and resolvers, after the tests of the repository,
with emissions in `Int`. -/

namespace scenario

open service

/-- The first request row of the tests. -/
def rowUS : models.MeasureRow :=
  { Country := "US", Channel := "online", Impressions := 1000, InventoryID := "inv-001"
    UTCDatetime := "2025-01-01T12:00:00Z", IsPriority := false }

/-- The second request row of the tests. -/
def rowUK : models.MeasureRow :=
  { Country := "UK", Channel := "tv", Impressions := 500, InventoryID := "inv-002"
    UTCDatetime := "2025-01-01T13:00:00Z", IsPriority := true }

/-- A row that fails validation (no inventory id). -/
def rowBad : models.MeasureRow :=
  { Country := "FR", Channel := "radio", Impressions := 10, InventoryID := ""
    UTCDatetime := "2025-01-01T14:00:00Z", IsPriority := false }

/-- The record cached for `rowUS` in the tests. -/
def recordUS : scope3.MeasureRowResponse Int :=
  { TotalEmissions := 60, Internal := { PropertyID := 1, PropertyName := "Property 1" }
    InventoryCoverage := "" }

/-- The record resolved for `rowUK` in the tests. -/
def recordUK : scope3.MeasureRowResponse Int :=
  { TotalEmissions := 40, Internal := { PropertyID := 2, PropertyName := "Property 2" }
    InventoryCoverage := "" }

/-- A resolved record that carries the sentinel, with emissions and a
property identity that must not surface. -/
def recordMissing : scope3.MeasureRowResponse Int :=
  { TotalEmissions := 7, Internal := { PropertyID := 9, PropertyName := "Property 9" }
    InventoryCoverage := "missing" }

/-- An empty store with a default TTL of two seconds. -/
def storeEmpty : cache.EmissionsCache Int :=
  { store := { defaultExpiration := 2000000000, now := 0, items := [] } }

/-- The store of the partial-cache test: only the key of `rowUS` is cached. -/
def storeUS : cache.EmissionsCache Int :=
  { store :=
      { defaultExpiration := 2000000000, now := 0
        items := [("US-online-1000-inv-001",
          { Object := CacheValue.record recordUS
            Expiration := gocache.Expiry.Timed 2000000000 })] } }

/-- The store of the all-cached test: both keys are cached. -/
def storeBoth : cache.EmissionsCache Int :=
  { store :=
      { defaultExpiration := 2000000000, now := 0
        items := [("US-online-1000-inv-001",
            { Object := CacheValue.record recordUS
              Expiration := gocache.Expiry.Timed 2000000000 }),
          ("UK-tv-500-inv-002",
            { Object := CacheValue.record recordUK
              Expiration := gocache.Expiry.Permanent })] } }

/-- A resolver that answers every request with the one record `recordUK`. -/
def clientUK : Scope3Client Int :=
  { GetEmissions := fun _ =>
      (some { RequestID := "api-req-001", TotalEmissions := 40, Rows := [recordUK] },
        errors.GoError.nil) }

/-- A resolver that answers every request with the one record `recordMissing`. -/
def clientMissing : Scope3Client Int :=
  { GetEmissions := fun _ =>
      (some { RequestID := "api-req-003", TotalEmissions := 7, Rows := [recordMissing] },
        errors.GoError.nil) }

/-- A resolver that fails on every request. -/
def clientDown : Scope3Client Int :=
  { GetEmissions := fun _ => (none, errors.GoError.other "connection refused") }

/-- A resolver that answers every request with two records. -/
def clientTwo : Scope3Client Int :=
  { GetEmissions := fun _ =>
      (some { RequestID := "api-req-002", TotalEmissions := 100, Rows := [recordUS, recordUK] },
        errors.GoError.nil) }

/-- The request of the tests: `rowUS` then `rowUK`. -/
def reqBoth : models.MeasureRequest := { Rows := [rowUS, rowUK] }

/-- The same two rows in the other order. -/
def reqSwapped : models.MeasureRequest := { Rows := [rowUK, rowUS] }

/-- The row `rowUK` without the priority flag: same key, other flag. -/
def rowUKlow : models.MeasureRow :=
  { Country := "UK", Channel := "tv", Impressions := 500, InventoryID := "inv-002"
    UTCDatetime := "2025-01-01T09:00:00Z", IsPriority := false }

/-- Two rows that share a key and differ in the priority flag; the last one
has it set. -/
def reqDup : models.MeasureRequest := { Rows := [rowUKlow, rowUK] }

/-- The request of the large-request test: one hundred copies of one row. -/
def reqLarge : models.MeasureRequest := { Rows := List.replicate 100 rowUS }

/-- The resolver of the large-request test: one hundred zero-valued records. -/
def clientLarge : Scope3Client Int :=
  { GetEmissions := fun _ =>
      (some { RequestID := "api-req-002", TotalEmissions := 5000
              Rows := List.replicate 100
                { TotalEmissions := 0, Internal := { PropertyID := 0, PropertyName := "" }
                  InventoryCoverage := "" } },
        errors.GoError.nil) }

/-- A request with the single row `rowUS`. -/
def reqUS : models.MeasureRequest := { Rows := [rowUS] }

/-- A row whose channel contains the separator. -/
def rowInApp : models.MeasureRow :=
  { Country := "US", Channel := "in-app", Impressions := 1000, InventoryID := "inv-001"
    UTCDatetime := "2025-01-01T12:00:00Z", IsPriority := false }

/-- A row with another country and another channel whose key is that of
`rowInApp`. -/
def rowInAppShifted : models.MeasureRow :=
  { Country := "US-in", Channel := "app", Impressions := 1000, InventoryID := "inv-001"
    UTCDatetime := "2025-01-01T12:00:00Z", IsPriority := false }

/-- The row `rowInApp` at another time and with the priority flag. -/
def rowInAppLater : models.MeasureRow :=
  { Country := "US", Channel := "in-app", Impressions := 1000, InventoryID := "inv-001"
    UTCDatetime := "2025-06-01T12:00:00Z", IsPriority := true }

end scenario

/-! ## Lemmas on the loops of `GetMeasure` -/

namespace service

open errors

theorem validateRows_nil_iff (rows : List models.MeasureRow) (i : Nat) :
    validateRows i rows = GoError.nil ↔ ∀ row ∈ rows, ¬ rowInvalid row := by
  induction rows generalizing i with
  | nil => simp [validateRows]
  | cons row rest ih =>
    simp only [validateRows, List.mem_cons, forall_eq_or_imp, rowInvalid]
    by_cases h1 : row.Country = ""
    · simp [h1, NewValidationError]
    by_cases h2 : row.Channel = ""
    · simp [h1, h2, NewValidationError]
    by_cases h3 : row.Impressions ≤ 0
    · simp [h1, h2, h3, NewValidationError]
    by_cases h4 : row.InventoryID = ""
    · simp [h1, h2, h3, h4, NewValidationError]
    simp only [h1, h2, h3, h4, if_false, or_self, not_false_eq_true, true_and]
    exact ih (i + 1)

theorem validateRows_type (rows : List models.MeasureRow) (i : Nat) :
    validateRows i rows = GoError.nil ∨
      hasType ErrorType.ErrorTypeValidation (validateRows i rows) = true := by
  induction rows generalizing i with
  | nil => simp [validateRows]
  | cons row rest ih =>
    simp only [validateRows]
    split_ifs <;> first | exact ih (i + 1) | simp [NewValidationError, hasType]

theorem checkCache_eq {σ F : Type} (cache : CacheRepository σ F) (s : σ)
    (rows : List models.MeasureRow) (acc : Partition F) :
    checkCache cache s rows acc =
      { modelRows := acc.modelRows ++ hitRows cache s rows
        uncachedRows := acc.uncachedRows ++ missRows cache s rows
        trace := acc.trace ++ rows.map (fun row => Event.cacheGet (generateCacheKey row)) } := by
  induction rows generalizing acc with
  | nil => simp [checkCache, hitRows, missRows]
  | cons row rest ih =>
    unfold checkCache
    cases h : cache.Get s (generateCacheKey row) with
    | none => simp [ih, hitRows, missRows, isMiss, h]
    | some v =>
      cases v with
      | record r => simp [ih, hitRows, missRows, isMiss, h]
      | other t => simp [ih, hitRows, missRows, isMiss, h]

theorem uncachedKey_toUncached (row : models.MeasureRow) :
    uncachedKey (toUncached row) = generateCacheKey row := rfl

theorem lookup_filter_ne {V : Type} (m : List (String × V)) (k k1 : String) (h : k1 ≠ k) :
    (m.filter (fun p => p.1 != k)).lookup k1 = m.lookup k1 := by
  induction m with
  | nil => rfl
  | cons p rest ih =>
    obtain ⟨a, b⟩ := p
    by_cases ha : a = k
    · subst ha
      have hk : (k1 == a) = false := by simpa using h
      simp [List.filter_cons, List.lookup_cons, hk, ih]
    · have hf : (a != k) = true := by simpa using ha
      simp only [List.filter_cons, hf, if_true, List.lookup_cons, ih]

theorem gomap_get_set {V : Type} (m : List (String × V)) (k k1 : String) (v : V) :
    gomap.get (gomap.set m k v) k1 = if k1 = k then some v else gomap.get m k1 := by
  unfold gomap.get gomap.set
  by_cases h : k1 = k
  · subst h; simp [List.lookup_cons]
  · have hk : (k1 == k) = false := by simpa using h
    simp [List.lookup_cons, hk, h, lookup_filter_ne m k k1 h]

theorem foldl_set_get (rows : List models.MeasureRow) (m : List (String × models.MeasureRow))
    (k : String) :
    gomap.get (rows.foldl (fun m row => gomap.set m (generateCacheKey row) row) m) k =
      match rows.reverse.find? (fun row => decide (generateCacheKey row = k)) with
      | some row => some row
      | none => gomap.get m k := by
  induction rows generalizing m with
  | nil => simp
  | cons row rest ih =>
    simp only [List.foldl_cons, ih, List.reverse_cons, List.find?_append]
    cases hr : rest.reverse.find? (fun row => decide (generateCacheKey row = k)) with
    | some r => simp
    | none =>
      by_cases hk : generateCacheKey row = k
      · simp [gomap_get_set, hk]
      · have hk1 : ¬ k = generateCacheKey row := fun h => hk h.symm
        simp [gomap_get_set, hk, hk1]

theorem processRows_eq {σ F : Type} [Zero F] (cache : CacheRepository σ F)
    (m : List (String × models.MeasureRow)) (uncachedRows : List scope3.MeasureRow)
    (hm : ∀ u ∈ uncachedRows, (gomap.get m (uncachedKey u)).isSome = true)
    (apiRows : List (scope3.MeasureRowResponse F)) (i : Nat) (s : σ)
    (acc : List (models.MeasureRowResponse F)) (tr : List (Event F)) :
    processRows cache m uncachedRows i apiRows s acc tr =
      { exit := if apiRows.length ≤ (uncachedRows.drop i).length then LoopExit.done
          else LoopExit.panicked
        store := applyWrites cache s (writesOf m ((uncachedRows.drop i).zip apiRows))
        modelRows := acc ++ ((uncachedRows.drop i).zip apiRows).map (fun p => apiRowResponse p.2)
        trace := tr ++ (writesOf m ((uncachedRows.drop i).zip apiRows)).map
          (fun w => Event.cacheSet w.1 w.2.1 w.2.2) } := by
  induction apiRows generalizing i s acc tr with
  | nil => simp [processRows, writesOf, applyWrites]
  | cons a rest ih =>
    unfold processRows
    cases hu : uncachedRows.get? i with
    | none =>
      have hle : uncachedRows.length ≤ i := List.get?_eq_none.mp hu
      simp [List.drop_eq_nil_of_le hle, writesOf, applyWrites]
    | some u =>
      obtain ⟨hlt, hget⟩ := List.get?_eq_some.mp hu
      have hmem : u ∈ uncachedRows := hget ▸ List.get_mem uncachedRows i hlt
      have hdrop : uncachedRows.drop i = u :: uncachedRows.drop (i + 1) := by
        rw [List.drop_eq_getElem_cons hlt]
        simp only [List.get_eq_getElem] at hget
        rw [hget]
      have hsome := hm u hmem
      cases hg : gomap.get m (uncachedKey u) with
      | none => simp [hg] at hsome
      | some o =>
        simp only [ih, hdrop, List.zip_cons_cons, List.length_cons, List.map_cons,
          writesOf, applyWrites, List.foldl_cons, priorityOf, hg, List.append_assoc,
          List.singleton_append, Nat.add_le_add_iff_right]

theorem originalRowsMap_get (rows : List models.MeasureRow) (k : String) :
    gomap.get (buildOriginalRowsMap rows) k =
      rows.reverse.find? (fun row => decide (generateCacheKey row = k)) := by
  unfold buildOriginalRowsMap
  rw [foldl_set_get]
  cases rows.reverse.find? (fun row => decide (generateCacheKey row = k)) <;> simp [gomap.get]

theorem missRows_key_mem {σ F : Type} (cache : CacheRepository σ F) (s : σ)
    (rows : List models.MeasureRow) :
    ∀ u ∈ missRows cache s rows,
      (gomap.get (buildOriginalRowsMap rows) (uncachedKey u)).isSome = true := by
  intro u hu
  simp only [missRows, List.mem_map, List.mem_filter] at hu
  obtain ⟨row, ⟨hrow, _⟩, rfl⟩ := hu
  rw [originalRowsMap_get, List.find?_isSome]
  exact ⟨row, by simpa using hrow, by simp [uncachedKey_toUncached]⟩

theorem GetMeasure_invalid {σ F : Type} [Zero F] [Add F] (cache : CacheRepository σ F)
    (client : Scope3Client F) (requestID : String) (s : σ) (req : models.MeasureRequest)
    (h : ¬ validRequest req) :
    ∃ err, hasType ErrorType.ErrorTypeValidation err = true ∧
      GetMeasure cache client requestID s req =
        { out := Outcome.returned none err, store := s, trace := [] } := by
  unfold GetMeasure
  by_cases h0 : req.Rows.length = 0
  · exact ⟨NewValidationError "no rows provided in request",
      by simp [NewValidationError, hasType], by simp [h0]⟩
  · have hne : req.Rows ≠ [] := fun h1 => h0 (by simp [h1])
    have hv : validateRows 0 req.Rows ≠ GoError.nil := by
      intro hnil
      exact h ⟨hne, (validateRows_nil_iff req.Rows 0).mp hnil⟩
    rcases validateRows_type req.Rows 0 with h1 | h1
    · exact absurd h1 hv
    · refine ⟨validateRows 0 req.Rows, h1, ?_⟩
      simp only [h0, if_false]

theorem GetMeasure_valid {σ F : Type} [Zero F] [Add F] (cache : CacheRepository σ F)
    (client : Scope3Client F) (requestID : String) (s : σ) (req : models.MeasureRequest)
    (h : validRequest req) :
    GetMeasure cache client requestID s req =
      if missRows cache s req.Rows = [] then
        { out := Outcome.returned
            (some { RequestID := requestID
                    TotalEmissions := sumEmissions (hitRows cache s req.Rows)
                    Rows := hitRows cache s req.Rows }) GoError.nil
          store := s, trace := lookupEvents req.Rows }
      else
        let tr := lookupEvents req.Rows ++
          [Event.resolve (resolverRequest (missRows cache s req.Rows))]
        match client.GetEmissions (resolverRequest (missRows cache s req.Rows)) with
        | (none, GoError.nil) => { out := Outcome.panic, store := s, trace := tr }
        | (some apiResponse, GoError.nil) =>
          let pairs := (missRows cache s req.Rows).zip apiResponse.Rows
          let ws := writesOf (buildOriginalRowsMap req.Rows) pairs
          let rows := hitRows cache s req.Rows ++ pairs.map (fun p => apiRowResponse p.2)
          { out :=
              if apiResponse.Rows.length ≤ (missRows cache s req.Rows).length then
                Outcome.returned
                  (some { RequestID := requestID
                          TotalEmissions := sumEmissions rows
                          Rows := rows }) GoError.nil
              else Outcome.panic
            store := applyWrites cache s ws
            trace := tr ++ ws.map (fun w => Event.cacheSet w.1 w.2.1 w.2.2) }
        | (_, err) =>
          { out := Outcome.returned none
              (NewExternalError "failed to fetch emissions data from Scope3" err)
            store := s, trace := tr } := by
  obtain ⟨hne, hv⟩ := h
  have h0 : ¬ req.Rows.length = 0 := fun h1 => hne (List.length_eq_zero.mp h1)
  have hnil : validateRows 0 req.Rows = GoError.nil := (validateRows_nil_iff req.Rows 0).mpr hv
  unfold GetMeasure
  simp only [h0, if_false, hnil, checkCache_eq, List.nil_append, List.length_eq_zero]
  by_cases hmiss : missRows cache s req.Rows = []
  · simp [hmiss, lookupEvents]
  · simp only [hmiss, if_false]
    rcases hres : client.GetEmissions
        { Rows := missRows cache s req.Rows, IncludeRows := false, Latest := false,
          Fields := "" } with ⟨resp, err⟩
    have hres1 : client.GetEmissions (resolverRequest (missRows cache s req.Rows)) =
        (resp, err) := hres
    simp only [hres1]
    cases err with
    | nil =>
      cases resp with
      | none => simp [lookupEvents, resolverRequest]
      | some apiResponse =>
        simp only [processRows_eq cache _ _ (missRows_key_mem cache s req.Rows), List.drop_zero]
        by_cases hlen : apiResponse.Rows.length ≤ (missRows cache s req.Rows).length
        · simp [hlen, lookupEvents, resolverRequest]
        · simp [hlen, lookupEvents, resolverRequest]
    | other t => simp [lookupEvents, resolverRequest]
    | ServiceError t msg e => simp [lookupEvents, resolverRequest]

theorem not_validRequest_iff (req : models.MeasureRequest) :
    ¬ validRequest req ↔ (req.Rows = [] ∨ ∃ row ∈ req.Rows, rowInvalid row) := by
  unfold validRequest
  constructor
  · intro h
    by_cases hne : req.Rows = []
    · exact Or.inl hne
    · right
      by_contra hex
      exact h ⟨hne, fun row hrow hinv => hex ⟨row, hrow, hinv⟩⟩
  · rintro (h | ⟨row, hrow, hinv⟩) ⟨hne, hv⟩
    · exact hne h
    · exact hv row hrow hinv

theorem GetMeasure_valid_not_validation {σ F : Type} [Zero F] [Add F]
    (cache : CacheRepository σ F) (client : Scope3Client F) (requestID : String) (s : σ)
    (req : models.MeasureRequest) (h : validRequest req)
    (resp : Option (models.MeasureResponse F)) (err : GoError)
    (hout : (GetMeasure cache client requestID s req).out = Outcome.returned resp err) :
    hasType ErrorType.ErrorTypeValidation err = false := by
  rw [GetMeasure_valid cache client requestID s req h] at hout
  split_ifs at hout with hmiss
  · simp only [Outcome.returned.injEq] at hout
    rw [← hout.2]; rfl
  · simp only at hout
    split at hout
    · simp at hout
    · split_ifs at hout
      simp only [Outcome.returned.injEq] at hout
      rw [← hout.2]; rfl
    · simp only [Outcome.returned.injEq] at hout
      rw [← hout.2]; rfl

theorem GetMeasure_allHit {σ F : Type} [Zero F] [Add F] (cache : CacheRepository σ F)
    (client : Scope3Client F) (requestID : String) (s : σ) (req : models.MeasureRequest)
    (h : validRequest req) (hmiss : missRows cache s req.Rows = []) :
    GetMeasure cache client requestID s req =
      { out := Outcome.returned
          (some { RequestID := requestID
                  TotalEmissions := sumEmissions (hitRows cache s req.Rows)
                  Rows := hitRows cache s req.Rows }) GoError.nil
        store := s, trace := lookupEvents req.Rows } := by
  rw [GetMeasure_valid cache client requestID s req h, if_pos hmiss]

theorem GetMeasure_resolverFailed {σ F : Type} [Zero F] [Add F] (cache : CacheRepository σ F)
    (client : Scope3Client F) (requestID : String) (s : σ) (req : models.MeasureRequest)
    (h : validRequest req) (hmiss : missRows cache s req.Rows ≠ [])
    (herr : (client.GetEmissions (resolverRequest (missRows cache s req.Rows))).2 ≠ GoError.nil) :
    GetMeasure cache client requestID s req =
      { out := Outcome.returned none
          (NewExternalError "failed to fetch emissions data from Scope3"
            (client.GetEmissions (resolverRequest (missRows cache s req.Rows))).2)
        store := s
        trace := lookupEvents req.Rows ++
          [Event.resolve (resolverRequest (missRows cache s req.Rows))] } := by
  rw [GetMeasure_valid cache client requestID s req h, if_neg hmiss]
  rcases hres : client.GetEmissions (resolverRequest (missRows cache s req.Rows)) with ⟨resp, err⟩
  rw [hres] at herr
  cases err with
  | nil => exact absurd rfl herr
  | other t => cases resp <;> rfl
  | ServiceError t msg e => cases resp <;> rfl

theorem GetMeasure_nilResponse {σ F : Type} [Zero F] [Add F] (cache : CacheRepository σ F)
    (client : Scope3Client F) (requestID : String) (s : σ) (req : models.MeasureRequest)
    (h : validRequest req) (hmiss : missRows cache s req.Rows ≠ [])
    (hres : client.GetEmissions (resolverRequest (missRows cache s req.Rows)) =
      (none, GoError.nil)) :
    GetMeasure cache client requestID s req =
      { out := Outcome.panic, store := s
        trace := lookupEvents req.Rows ++
          [Event.resolve (resolverRequest (missRows cache s req.Rows))] } := by
  rw [GetMeasure_valid cache client requestID s req h, if_neg hmiss]
  simp only [hres]

theorem GetMeasure_resolved {σ F : Type} [Zero F] [Add F] (cache : CacheRepository σ F)
    (client : Scope3Client F) (requestID : String) (s : σ) (req : models.MeasureRequest)
    (h : validRequest req) (hmiss : missRows cache s req.Rows ≠ [])
    (apiResponse : scope3.MeasureResponse F)
    (hres : client.GetEmissions (resolverRequest (missRows cache s req.Rows)) =
      (some apiResponse, GoError.nil)) :
    GetMeasure cache client requestID s req =
      { out :=
          if apiResponse.Rows.length ≤ (missRows cache s req.Rows).length then
            Outcome.returned
              (some { RequestID := requestID
                      TotalEmissions := sumEmissions (hitRows cache s req.Rows ++
                        ((missRows cache s req.Rows).zip apiResponse.Rows).map
                          (fun p => apiRowResponse p.2))
                      Rows := hitRows cache s req.Rows ++
                        ((missRows cache s req.Rows).zip apiResponse.Rows).map
                          (fun p => apiRowResponse p.2) }) GoError.nil
          else Outcome.panic
        store := applyWrites cache s (writesOf (buildOriginalRowsMap req.Rows)
          ((missRows cache s req.Rows).zip apiResponse.Rows))
        trace := lookupEvents req.Rows ++
          [Event.resolve (resolverRequest (missRows cache s req.Rows))] ++
          (writesOf (buildOriginalRowsMap req.Rows)
            ((missRows cache s req.Rows).zip apiResponse.Rows)).map
              (fun w => Event.cacheSet w.1 w.2.1 w.2.2) } := by
  rw [GetMeasure_valid cache client requestID s req h, if_neg hmiss]
  simp only [hres]

theorem resolverCalls_append {F : Type} (t1 t2 : List (Event F)) :
    resolverCalls (t1 ++ t2) = resolverCalls t1 ++ resolverCalls t2 := by
  simp [resolverCalls, List.filterMap_append]

theorem cacheWrites_append {F : Type} (t1 t2 : List (Event F)) :
    cacheWrites (t1 ++ t2) = cacheWrites t1 ++ cacheWrites t2 := by
  simp [cacheWrites, List.filterMap_append]

theorem resolverCalls_lookupEvents {F : Type} (rows : List models.MeasureRow) :
    resolverCalls (lookupEvents rows : List (Event F)) = [] := by
  induction rows with
  | nil => rfl
  | cons row rest ih =>
    simp only [lookupEvents, List.map_cons, resolverCalls, List.filterMap_cons] at ih ⊢
    exact ih

theorem cacheWrites_lookupEvents {F : Type} (rows : List models.MeasureRow) :
    cacheWrites (lookupEvents rows : List (Event F)) = [] := by
  induction rows with
  | nil => rfl
  | cons row rest ih =>
    simp only [lookupEvents, List.map_cons, cacheWrites, List.filterMap_cons] at ih ⊢
    exact ih

theorem resolverCalls_setEvents {F : Type} (ws : List (String × CacheValue F × Bool)) :
    resolverCalls (ws.map (fun w => Event.cacheSet w.1 w.2.1 w.2.2)) = [] := by
  induction ws with
  | nil => rfl
  | cons w rest ih =>
    simp only [List.map_cons, resolverCalls, List.filterMap_cons] at ih ⊢
    exact ih

theorem cacheWrites_setEvents {F : Type} (ws : List (String × CacheValue F × Bool)) :
    cacheWrites (ws.map (fun w => Event.cacheSet w.1 w.2.1 w.2.2)) = ws := by
  induction ws with
  | nil => rfl
  | cons w rest ih =>
    simp only [List.map_cons, cacheWrites, List.filterMap_cons] at ih ⊢
    rw [ih]

theorem missRows_eq_nil_of_hit {σ F : Type} (cache : CacheRepository σ F) (s : σ)
    (rows : List models.MeasureRow)
    (hhit : ∀ row ∈ rows, ∃ r, cache.Get s (generateCacheKey row) = some (CacheValue.record r)) :
    missRows cache s rows = [] := by
  unfold missRows
  rw [List.map_eq_nil_iff, List.filter_eq_nil_iff]
  intro row hrow
  obtain ⟨r, hr⟩ := hhit row hrow
  simp [isMiss, hr]

theorem missRows_eq_map_of_miss {σ F : Type} (cache : CacheRepository σ F) (s : σ)
    (rows : List models.MeasureRow)
    (hmiss : ∀ row ∈ rows, isMiss cache s row = true) :
    missRows cache s rows = rows.map toUncached := by
  unfold missRows
  rw [List.filter_eq_self.mpr hmiss]

theorem hitRows_eq_nil_of_miss {σ F : Type} (cache : CacheRepository σ F) (s : σ)
    (rows : List models.MeasureRow)
    (hmiss : ∀ row ∈ rows, isMiss cache s row = true) :
    hitRows cache s rows = [] := by
  unfold hitRows
  rw [List.filterMap_eq_nil_iff]
  intro row hrow
  have hm := hmiss row hrow
  unfold isMiss at hm
  cases hg : cache.Get s (generateCacheKey row) with
  | none => rfl
  | some v =>
    cases v with
    | record r => rw [hg] at hm; exact Bool.noConfusion hm
    | other t => rfl

theorem hitRows_cached {σ F : Type} (cache : CacheRepository σ F) (s : σ)
    (rows : List models.MeasureRow) :
    ∀ r ∈ hitRows cache s rows, r.Cached = true := by
  intro r hr
  simp only [hitRows, List.mem_filterMap] at hr
  obtain ⟨row, _, hrow⟩ := hr
  split at hrow
  · simp only [Option.some.injEq] at hrow
    rw [← hrow]; rfl
  · exact Option.noConfusion hrow

theorem hitRows_length_of_hit {σ F : Type} (cache : CacheRepository σ F) (s : σ)
    (rows : List models.MeasureRow)
    (hhit : ∀ row ∈ rows, ∃ r, cache.Get s (generateCacheKey row) = some (CacheValue.record r)) :
    (hitRows cache s rows).length = rows.length := by
  induction rows with
  | nil => rfl
  | cons row rest ih =>
    obtain ⟨r, hr⟩ := hhit row (List.mem_cons_self _ _)
    have ih1 := ih (fun x hx => hhit x (List.mem_cons_of_mem _ hx))
    simp only [hitRows, List.filterMap_cons, hr, List.length_cons] at ih1 ⊢
    rw [ih1]

theorem apiRowResponse_cached {F : Type} [Zero F] (a : scope3.MeasureRowResponse F) :
    (apiRowResponse a).Cached = false := by
  unfold apiRowResponse
  split_ifs <;> rfl

theorem zip_map_snd_of_le {α β γ : Type} (f : β → γ) (l1 : List α) (l2 : List β)
    (h : l2.length ≤ l1.length) : (l1.zip l2).map (fun p => f p.2) = l2.map f := by
  induction l2 generalizing l1 with
  | nil => simp
  | cons b rest ih =>
    cases l1 with
    | nil => simp at h
    | cons a l1 =>
      simp only [List.zip_cons_cons, List.map_cons, List.cons.injEq, true_and]
      exact ih l1 (by simpa using h)

theorem GetMeasure_resolverCalls {σ F : Type} [Zero F] [Add F] (cache : CacheRepository σ F)
    (client : Scope3Client F) (requestID : String) (s : σ) (req : models.MeasureRequest)
    (h : validRequest req) :
    resolverCalls (GetMeasure cache client requestID s req).trace =
      if missRows cache s req.Rows = [] then []
      else [resolverRequest (missRows cache s req.Rows)] := by
  by_cases hmiss : missRows cache s req.Rows = []
  · rw [GetMeasure_allHit cache client requestID s req h hmiss, if_pos hmiss]
    exact resolverCalls_lookupEvents req.Rows
  · rw [if_neg hmiss]
    rcases hres : client.GetEmissions (resolverRequest (missRows cache s req.Rows))
      with ⟨resp, err⟩
    by_cases herr : err = GoError.nil
    · subst herr
      cases resp with
      | none =>
        rw [GetMeasure_nilResponse cache client requestID s req h hmiss hres]
        simp only [resolverCalls_append, resolverCalls_lookupEvents]
        rfl
      | some apiResponse =>
        rw [GetMeasure_resolved cache client requestID s req h hmiss apiResponse hres]
        simp only [resolverCalls_append, resolverCalls_lookupEvents, resolverCalls_setEvents]
        rfl
    · rw [GetMeasure_resolverFailed cache client requestID s req h hmiss (by rw [hres]; exact herr)]
      simp only [resolverCalls_append, resolverCalls_lookupEvents]
      rfl

theorem GetMeasure_success {σ F : Type} [Zero F] [Add F] (cache : CacheRepository σ F)
    (client : Scope3Client F) (requestID : String) (s : σ) (req : models.MeasureRequest)
    (h : validRequest req) (hmiss : missRows cache s req.Rows ≠ [])
    (resp : models.MeasureResponse F) (err : GoError)
    (hout : (GetMeasure cache client requestID s req).out = Outcome.returned (some resp) err) :
    ∃ apiResponse,
      client.GetEmissions (resolverRequest (missRows cache s req.Rows)) =
        (some apiResponse, GoError.nil) ∧
      apiResponse.Rows.length ≤ (missRows cache s req.Rows).length ∧
      err = GoError.nil ∧
      resp = { RequestID := requestID
               TotalEmissions := sumEmissions (hitRows cache s req.Rows ++
                 apiResponse.Rows.map apiRowResponse)
               Rows := hitRows cache s req.Rows ++ apiResponse.Rows.map apiRowResponse } := by
  rcases hres : client.GetEmissions (resolverRequest (missRows cache s req.Rows))
    with ⟨aresp, aerr⟩
  by_cases herr : aerr = GoError.nil
  · subst herr
    cases aresp with
    | none =>
      rw [GetMeasure_nilResponse cache client requestID s req h hmiss hres] at hout
      exact Outcome.noConfusion hout
    | some apiResponse =>
      rw [GetMeasure_resolved cache client requestID s req h hmiss apiResponse hres] at hout
      by_cases hlen : apiResponse.Rows.length ≤ (missRows cache s req.Rows).length
      · simp only [hlen, if_true, Outcome.returned.injEq, Option.some.injEq] at hout
        rw [zip_map_snd_of_le apiRowResponse _ _ hlen] at hout
        exact ⟨apiResponse, rfl, hlen, hout.2.symm, hout.1.symm⟩
      · simp only [hlen, if_false] at hout
        exact Outcome.noConfusion hout
  · rw [GetMeasure_resolverFailed cache client requestID s req h hmiss
      (by rw [hres]; exact herr)] at hout
    simp only [Outcome.returned.injEq] at hout
    exact Option.noConfusion hout.1

theorem missRows_ne_nil_of_miss {σ F : Type} (cache : CacheRepository σ F) (s : σ)
    (rows : List models.MeasureRow) (row : models.MeasureRow) (hrow : row ∈ rows)
    (hmiss : isMiss cache s row = true) : missRows cache s rows ≠ [] := by
  unfold missRows
  intro hnil
  rw [List.map_eq_nil_iff, List.filter_eq_nil_iff] at hnil
  exact hnil row hrow hmiss

theorem sumEmissions_eq_sum {F : Type} [AddMonoid F] (rows : List (models.MeasureRowResponse F)) :
    sumEmissions rows = (rows.map (fun row => row.TotalEmissions)).sum := by
  rw [List.sum_eq_foldl, List.foldl_map]
  rfl

theorem priorityOf_originalRowsMap (rows : List models.MeasureRow) (k : String) :
    priorityOf (buildOriginalRowsMap rows) k = originatingFlag rows k := by
  unfold priorityOf originatingFlag originatingRow
  rw [originalRowsMap_get]

theorem writesOf_eq_zipWith {F : Type} (rows : List models.MeasureRow)
    (l1 : List scope3.MeasureRow) (l2 : List (scope3.MeasureRowResponse F)) :
    writesOf (buildOriginalRowsMap rows) (l1.zip l2) =
      List.zipWith (fun u a =>
        (uncachedKey u, CacheValue.record a, originatingFlag rows (uncachedKey u))) l1 l2 := by
  unfold writesOf
  rw [List.zip_eq_zipWith, List.map_zipWith]
  simp only [priorityOf_originalRowsMap]

theorem GetMeasure_cacheWrites_resolved {σ F : Type} [Zero F] [Add F]
    (cache : CacheRepository σ F) (client : Scope3Client F) (requestID : String) (s : σ)
    (req : models.MeasureRequest) (h : validRequest req)
    (hmiss : missRows cache s req.Rows ≠ []) (apiResponse : scope3.MeasureResponse F)
    (hres : client.GetEmissions (resolverRequest (missRows cache s req.Rows)) =
      (some apiResponse, GoError.nil)) :
    cacheWrites (GetMeasure cache client requestID s req).trace =
      List.zipWith (fun u a =>
        (uncachedKey u, CacheValue.record a, originatingFlag req.Rows (uncachedKey u)))
        (missRows cache s req.Rows) apiResponse.Rows := by
  rw [GetMeasure_resolved cache client requestID s req h hmiss apiResponse hres]
  simp only [cacheWrites_append, cacheWrites_lookupEvents, cacheWrites_setEvents,
    List.nil_append, writesOf_eq_zipWith]
  rfl

theorem originatingRow_last (rows : List models.MeasureRow) (k : String)
    (row : models.MeasureRow) (h : originatingRow rows k = some row) :
    generateCacheKey row = k ∧
      ∃ pre post, rows = pre ++ row :: post ∧ ∀ r ∈ post, generateCacheKey r ≠ k := by
  unfold originatingRow at h
  rw [List.find?_eq_some] at h
  obtain ⟨hk, as, bs, hrev, hnot⟩ := h
  refine ⟨by simpa using hk, bs.reverse, as.reverse, ?_, ?_⟩
  · have := congrArg List.reverse hrev
    simpa using this
  · intro r hr
    have := hnot r (by simpa using hr)
    simpa using this

theorem originatingRow_isSome_of_miss {σ F : Type} (cache : CacheRepository σ F) (s : σ)
    (rows : List models.MeasureRow) (u : scope3.MeasureRow) (hu : u ∈ missRows cache s rows) :
    ∃ row, originatingRow rows (uncachedKey u) = some row := by
  have h := missRows_key_mem cache s rows u hu
  rw [originalRowsMap_get] at h
  exact Option.isSome_iff_exists.mp h

theorem EmissionsCache_Set_eq {F : Type} (ec : cache.EmissionsCache F) (k : String)
    (v : CacheValue F) (p : Bool) :
    cache.EmissionsCache.Set ec k v p =
      { store :=
          { defaultExpiration := ec.store.defaultExpiration
            now := ec.store.now
            items := gomap.set ec.store.items k
              { Object := v
                Expiration := if p = true then gocache.Expiry.Permanent
                  else gocache.Expiry.Timed (ec.store.now + ec.store.defaultExpiration) } } } := by
  cases p <;>
    simp [cache.EmissionsCache.Set, gocache.Cache.Set, gocache.NoExpiration,
      gocache.DefaultExpiration]

theorem applyWrites_EmissionsCache {F : Type} (ws : List (String × CacheValue F × Bool))
    (ec : cache.EmissionsCache F) (k : String) :
    (applyWrites (cache.EmissionsCache.repository F) ec ws).store.now = ec.store.now ∧
      (applyWrites (cache.EmissionsCache.repository F) ec ws).store.defaultExpiration =
        ec.store.defaultExpiration ∧
      gomap.get (applyWrites (cache.EmissionsCache.repository F) ec ws).store.items k =
        match ws.reverse.find? (fun w => decide (w.1 = k)) with
        | some w =>
          some { Object := w.2.1
                 Expiration := if w.2.2 = true then gocache.Expiry.Permanent
                   else gocache.Expiry.Timed (ec.store.now + ec.store.defaultExpiration) }
        | none => gomap.get ec.store.items k := by
  induction ws generalizing ec with
  | nil => simp [applyWrites]
  | cons w rest ih =>
    have ih1 := ih (cache.EmissionsCache.Set ec w.1 w.2.1 w.2.2)
    have hstep : applyWrites (cache.EmissionsCache.repository F) ec (w :: rest) =
        applyWrites (cache.EmissionsCache.repository F)
          (cache.EmissionsCache.Set ec w.1 w.2.1 w.2.2) rest := rfl
    rw [hstep]
    obtain ⟨h1, h2, h3⟩ := ih1
    rw [EmissionsCache_Set_eq] at h1 h2 h3
    simp only at h1 h2 h3
    refine ⟨by rw [EmissionsCache_Set_eq]; exact h1, by rw [EmissionsCache_Set_eq]; exact h2, ?_⟩
    rw [EmissionsCache_Set_eq, h3]
    simp only [List.reverse_cons, List.find?_append]
    cases hr : rest.reverse.find? (fun w => decide (w.1 = k)) with
    | some w1 => simp
    | none =>
      by_cases hk : w.1 = k
      · simp [gomap_get_set, hk]
      · have hk1 : ¬ k = w.1 := fun h => hk h.symm
        simp [gomap_get_set, hk, hk1]

theorem GetMeasure_store_resolved {F : Type} [Zero F] [Add F]
    (client : Scope3Client F) (requestID : String) (ec : cache.EmissionsCache F)
    (req : models.MeasureRequest) (h : validRequest req)
    (hmiss : missRows (cache.EmissionsCache.repository F) ec req.Rows ≠ [])
    (apiResponse : scope3.MeasureResponse F)
    (hres : client.GetEmissions
        (resolverRequest (missRows (cache.EmissionsCache.repository F) ec req.Rows)) =
      (some apiResponse, GoError.nil))
    (k : String) (u : scope3.MeasureRow) (a : scope3.MeasureRowResponse F)
    (hlast : ((missRows (cache.EmissionsCache.repository F) ec req.Rows).zip
        apiResponse.Rows).reverse.find? (fun p => decide (uncachedKey p.1 = k)) = some (u, a)) :
    gomap.get (GetMeasure (cache.EmissionsCache.repository F) client requestID ec
        req).store.store.items k =
      some { Object := CacheValue.record a
             Expiration := if originatingFlag req.Rows k = true then gocache.Expiry.Permanent
               else gocache.Expiry.Timed (ec.store.now + ec.store.defaultExpiration) } := by
  rw [GetMeasure_resolved (cache.EmissionsCache.repository F) client requestID ec req h hmiss
    apiResponse hres]
  simp only
  rw [(applyWrites_EmissionsCache _ ec k).2.2]
  have hk : uncachedKey u = k := by
    have := List.find?_some hlast
    simpa using this
  have hfind : (writesOf (buildOriginalRowsMap req.Rows)
      ((missRows (cache.EmissionsCache.repository F) ec req.Rows).zip
        apiResponse.Rows)).reverse.find? (fun w => decide (w.1 = k)) =
      some (uncachedKey u, CacheValue.record a,
        priorityOf (buildOriginalRowsMap req.Rows) (uncachedKey u)) := by
    unfold writesOf
    rw [← List.map_reverse, List.find?_map]
    have hcomp : ((fun w : String × CacheValue F × Bool => decide (w.1 = k)) ∘
        fun p : scope3.MeasureRow × scope3.MeasureRowResponse F =>
          (uncachedKey p.1, CacheValue.record p.2,
            priorityOf (buildOriginalRowsMap req.Rows) (uncachedKey p.1))) =
        fun p => decide (uncachedKey p.1 = k) := rfl
    rw [hcomp, hlast]
    rfl
  rw [hfind]
  simp only [priorityOf_originalRowsMap, hk]

theorem apiRowResponse_missing {F : Type} [Zero F] (a : scope3.MeasureRowResponse F)
    (h : a.InventoryCoverage = "missing") :
    apiRowResponse a =
      { PropertyID := 0, PropertyName := "", TotalEmissions := 0, Cached := false
        InventoryCoverage := "missing" } := by
  unfold apiRowResponse
  rw [if_pos h]

theorem zip_map_snd {α β γ : Type} (f : β → γ) (l1 : List α) (l2 : List β) :
    (l1.zip l2).map (fun p => f p.2) = ((l1.zip (l2.map f)).map Prod.snd) := by
  rw [List.zip_map_right, List.map_map]
  rfl

theorem GetMeasure_out_congr {σ F : Type} [Zero F] [Add F] (cache : CacheRepository σ F)
    (client1 client2 : Scope3Client F) (requestID : String) (s : σ)
    (req : models.MeasureRequest) (h : validRequest req)
    (a1 a2 : scope3.MeasureResponse F)
    (h1 : client1.GetEmissions (resolverRequest (missRows cache s req.Rows)) =
      (some a1, GoError.nil))
    (h2 : client2.GetEmissions (resolverRequest (missRows cache s req.Rows)) =
      (some a2, GoError.nil))
    (hrows : a2.Rows.map apiRowResponse = a1.Rows.map apiRowResponse) :
    (GetMeasure cache client2 requestID s req).out =
      (GetMeasure cache client1 requestID s req).out := by
  by_cases hmiss : missRows cache s req.Rows = []
  · rw [GetMeasure_allHit cache client1 requestID s req h hmiss,
      GetMeasure_allHit cache client2 requestID s req h hmiss]
  · rw [GetMeasure_resolved cache client1 requestID s req h hmiss a1 h1,
      GetMeasure_resolved cache client2 requestID s req h hmiss a2 h2]
    have hlen : a2.Rows.length = a1.Rows.length := by
      have := congrArg List.length hrows
      simpa using this
    simp only [zip_map_snd, hrows, hlen]

theorem toDigitsCore_eq_digits (fuel n : Nat) (ds : List Char) (hfuel : n < fuel)
    (hpos : 0 < n) :
    Nat.toDigitsCore 10 fuel n ds = (Nat.digits 10 n).reverse.map Nat.digitChar ++ ds := by
  induction fuel generalizing n ds with
  | zero => exact absurd hfuel (Nat.not_lt_zero n)
  | succ fuel ih =>
    rw [Nat.digits_def' (by decide) hpos]
    simp only [Nat.toDigitsCore, List.reverse_cons, List.map_append, List.map_cons,
      List.map_nil, List.append_assoc, List.singleton_append]
    by_cases h0 : n / 10 = 0
    · simp [h0]
    · rw [if_neg h0]
      have hlt : n / 10 < fuel := by omega
      rw [ih (n / 10) _ hlt (Nat.pos_of_ne_zero h0)]

theorem toString_nat_eq_decimalNat (n : Nat) : toString n = decimalNat n := by
  show (Nat.toDigits 10 n).asString = decimalNat n
  unfold decimalNat Nat.toDigits
  by_cases h0 : n = 0
  · subst h0; rfl
  · rw [if_neg h0, toDigitsCore_eq_digits (n + 1) n [] (Nat.lt_succ_self n)
      (Nat.pos_of_ne_zero h0), List.append_nil]
    rfl

theorem toString_int_eq_decimal (n : Int) : toString n = decimal n := by
  unfold decimal
  cases n with
  | ofNat m =>
    have hnn : ¬ (Int.ofNat m < 0) := by simp
    rw [if_neg hnn]
    exact toString_nat_eq_decimalNat m
  | negSucc m =>
    have hneg : Int.negSucc m < 0 := Int.negSucc_lt_zero m
    rw [if_pos hneg]
    show "-" ++ toString (m + 1) = "-" ++ decimalNat (Int.negSucc m).natAbs
    rw [toString_nat_eq_decimalNat]
    rfl

theorem GetMeasure_valid_error {σ F : Type} [Zero F] [Add F] (cache : CacheRepository σ F)
    (client : Scope3Client F) (requestID : String) (s : σ) (req : models.MeasureRequest)
    (h : validRequest req) :
    returnedError (GetMeasure cache client requestID s req).out = GoError.nil ∨
      ∃ err, returnedError (GetMeasure cache client requestID s req).out =
        NewExternalError "failed to fetch emissions data from Scope3" err := by
  by_cases hmiss : missRows cache s req.Rows = []
  · rw [GetMeasure_allHit cache client requestID s req h hmiss]
    exact Or.inl rfl
  · rcases hres : client.GetEmissions (resolverRequest (missRows cache s req.Rows))
      with ⟨aresp, aerr⟩
    by_cases herr : aerr = GoError.nil
    · subst herr
      left
      cases aresp with
      | none =>
        rw [GetMeasure_nilResponse cache client requestID s req h hmiss hres]
        rfl
      | some apiResponse =>
        rw [GetMeasure_resolved cache client requestID s req h hmiss apiResponse hres]
        simp only
        split_ifs <;> rfl
    · right
      rw [GetMeasure_resolverFailed cache client requestID s req h hmiss
        (by rw [hres]; exact herr)]
      exact ⟨_, rfl⟩

theorem validateRows_first (rows : List models.MeasureRow) (k i : Nat)
    (row : models.MeasureRow) (hrow : rows[i]? = some row) (hinv : rowInvalid row)
    (hmin : ∀ j r, j < i → rows[j]? = some r → ¬ rowInvalid r) :
    validateRows k rows =
      NewValidationError (firstFailure row ++ " for row " ++ toString (k + i)) := by
  induction rows generalizing k i with
  | nil => simp at hrow
  | cons r rest ih =>
    cases i with
    | zero =>
      simp only [List.getElem?_cons_zero, Option.some.injEq] at hrow
      subst hrow
      simp only [validateRows, firstFailure, Nat.add_zero]
      unfold rowInvalid at hinv
      by_cases h1 : r.Country = ""
      · simp only [h1, if_true]
        rw [String.append_assoc]; rfl
      by_cases h2 : r.Channel = ""
      · simp only [h1, h2, if_true, if_false]
        rw [String.append_assoc]; rfl
      by_cases h3 : r.Impressions ≤ 0
      · simp only [h1, h2, h3, if_true, if_false]
        rw [String.append_assoc]; rfl
      have h4 : r.InventoryID = "" := by
        rcases hinv with h | h | h | h
        · exact absurd h h1
        · exact absurd h h2
        · exact absurd h h3
        · exact h
      simp only [h1, h2, h3, h4, if_true, if_false]
      rw [String.append_assoc]; rfl
    | succ j =>
      have hr : ¬ rowInvalid r := hmin 0 r (Nat.succ_pos j) (List.getElem?_cons_zero)
      unfold rowInvalid at hr
      simp only [not_or] at hr
      obtain ⟨h1, h2, h3, h4⟩ := hr
      simp only [validateRows, h1, h2, h3, h4, if_false]
      rw [ih (k + 1) j (by simpa using hrow)
        (fun j1 r1 hj hr1 => hmin (j1 + 1) r1 (Nat.succ_lt_succ hj) (by simpa using hr1))]
      have hidx : k + 1 + j = k + (j + 1) := by omega
      rw [hidx]

theorem hitRows_length_add_missRows_length {σ F : Type} (cache : CacheRepository σ F) (s : σ)
    (rows : List models.MeasureRow) :
    (hitRows cache s rows).length + (missRows cache s rows).length = rows.length := by
  induction rows with
  | nil => rfl
  | cons row rest ih =>
    simp only [hitRows, missRows, List.length_map] at ih ⊢
    cases hg : cache.Get s (generateCacheKey row) with
    | none =>
      have hm : isMiss cache s row = true := by simp [isMiss, hg]
      simp only [List.filterMap_cons, hg, List.filter_cons, hm, if_true, List.length_cons]
      omega
    | some v =>
      cases v with
      | record r =>
        have hm : isMiss cache s row = false := by simp [isMiss, hg]
        simp only [List.filterMap_cons, hg, List.filter_cons, hm, List.length_cons,
          Bool.false_eq_true, if_false]
        omega
      | other t =>
        have hm : isMiss cache s row = true := by simp [isMiss, hg]
        simp only [List.filterMap_cons, hg, List.filter_cons, hm, if_true, List.length_cons]
        omega

theorem mem_missRows {σ F : Type} (cache : CacheRepository σ F) (s : σ)
    (rows : List models.MeasureRow) (u : scope3.MeasureRow) (hu : u ∈ missRows cache s rows) :
    ∃ row ∈ rows, isMiss cache s row = true ∧ uncachedKey u = generateCacheKey row := by
  simp only [missRows, List.mem_map, List.mem_filter] at hu
  obtain ⟨row, ⟨hrow, hm⟩, rfl⟩ := hu
  exact ⟨row, hrow, hm, uncachedKey_toUncached row⟩

theorem GetMeasure_writes {σ F : Type} [Zero F] [Add F] (cache : CacheRepository σ F)
    (client : Scope3Client F) (requestID : String) (s : σ) (req : models.MeasureRequest) :
    ∃ ws, (GetMeasure cache client requestID s req).store = applyWrites cache s ws ∧
      cacheWrites (GetMeasure cache client requestID s req).trace = ws ∧
      ∀ w ∈ ws, ∃ u ∈ missRows cache s req.Rows, w.1 = uncachedKey u := by
  by_cases hvalid : validRequest req
  · by_cases hmiss : missRows cache s req.Rows = []
    · rw [GetMeasure_allHit cache client requestID s req hvalid hmiss]
      exact ⟨[], rfl, cacheWrites_lookupEvents req.Rows, by simp⟩
    · rcases hres : client.GetEmissions (resolverRequest (missRows cache s req.Rows))
        with ⟨aresp, aerr⟩
      by_cases herr : aerr = GoError.nil
      · subst herr
        cases aresp with
        | none =>
          rw [GetMeasure_nilResponse cache client requestID s req hvalid hmiss hres]
          refine ⟨[], rfl, ?_, by simp⟩
          simp only [cacheWrites_append, cacheWrites_lookupEvents]
          rfl
        | some apiResponse =>
          rw [GetMeasure_resolved cache client requestID s req hvalid hmiss apiResponse hres]
          refine ⟨_, rfl, ?_, ?_⟩
          · simp only [cacheWrites_append, cacheWrites_lookupEvents, cacheWrites_setEvents,
              List.nil_append]
            rfl
          · intro w hw
            simp only [writesOf, List.mem_map] at hw
            obtain ⟨p, hp, rfl⟩ := hw
            exact ⟨p.1, (List.of_mem_zip hp).1, rfl⟩
      · rw [GetMeasure_resolverFailed cache client requestID s req hvalid hmiss
          (by rw [hres]; exact herr)]
        refine ⟨[], rfl, ?_, by simp⟩
        simp only [cacheWrites_append, cacheWrites_lookupEvents]
        rfl
  · obtain ⟨err, _, heq⟩ := GetMeasure_invalid cache client requestID s req hvalid
    rw [heq]
    exact ⟨[], rfl, rfl, by simp⟩

theorem lookup_filter_none {V : Type} (m : List (String × V)) (k : String)
    (q : String × V → Bool) (h : m.lookup k = none) : (m.filter q).lookup k = none := by
  induction m with
  | nil => rfl
  | cons p rest ih =>
    obtain ⟨a, b⟩ := p
    rw [List.lookup_cons] at h
    cases hk : (k == a) with
    | true => rw [hk] at h; exact Option.noConfusion h
    | false =>
      rw [hk] at h
      rw [List.filter_cons]
      split_ifs
      · rw [List.lookup_cons, hk]; exact ih h
      · exact ih h

theorem lookup_filter_self {V : Type} (m : List (String × V)) (k : String) :
    (m.filter (fun p => p.1 != k)).lookup k = none := by
  induction m with
  | nil => rfl
  | cons p rest ih =>
    obtain ⟨a, b⟩ := p
    rw [List.filter_cons]
    by_cases ha : a = k
    · subst ha; simpa using ih
    · have hf : (a != k) = true := by simpa using ha
      have hk : (k == a) = false := by simpa using fun h : k = a => ha h.symm
      simp only [hf, if_true, List.lookup_cons, hk]
      exact ih

theorem EmissionsCache_Get_after_Set {F : Type} (ec : cache.EmissionsCache F) (key : String)
    (v : CacheValue F) (p : Bool) (t : Int) :
    ((ec.Set key v p).atTime t).Get key =
        (if p = true then some v
          else if t < ec.store.now + ec.store.defaultExpiration then some v else none) ∧
      ((ec.Set key v p).atTime t).swept.Get key = ((ec.Set key v p).atTime t).Get key := by
  rw [EmissionsCache_Set_eq]
  cases p with
  | true =>
    simp [cache.EmissionsCache.atTime, cache.EmissionsCache.swept, cache.EmissionsCache.Get,
      gocache.Cache.atTime, gocache.Cache.DeleteExpired, gocache.Cache.Get, gomap.get,
      gomap.set, List.lookup_cons, List.filter_cons]
  | false =>
    by_cases ht : t < ec.store.now + ec.store.defaultExpiration
    · simp [cache.EmissionsCache.atTime, cache.EmissionsCache.swept, cache.EmissionsCache.Get,
        gocache.Cache.atTime, gocache.Cache.DeleteExpired, gocache.Cache.Get, gomap.get,
        gomap.set, List.lookup_cons, List.filter_cons, ht]
    · have hnone := lookup_filter_none _ key
        (fun p : String × gocache.Item F =>
          match p.2.Expiration with
          | gocache.Expiry.Permanent => true
          | gocache.Expiry.Timed deadline => decide (t < deadline))
        (lookup_filter_self ec.store.items key)
      rw [List.filter_filter] at hnone
      simp [cache.EmissionsCache.atTime, cache.EmissionsCache.swept, cache.EmissionsCache.Get,
        gocache.Cache.atTime, gocache.Cache.DeleteExpired, gocache.Cache.Get, gomap.get,
        gomap.set, List.lookup_cons, List.filter_cons, ht, hnone]

theorem split_at_dash (l1 l2 r1 r2 : List Char) (h1 : '-' ∉ l1) (h2 : '-' ∉ l2)
    (h : l1 ++ '-' :: r1 = l2 ++ '-' :: r2) : l1 = l2 ∧ r1 = r2 := by
  induction l1 generalizing l2 with
  | nil =>
    cases l2 with
    | nil => simpa using h
    | cons c cs =>
      simp only [List.nil_append, List.cons_append, List.cons.injEq] at h
      exact absurd h.1.symm (fun hc => h2 (hc ▸ List.mem_cons_self _ _))
  | cons a as ih =>
    cases l2 with
    | nil =>
      simp only [List.nil_append, List.cons_append, List.cons.injEq] at h
      exact absurd h.1 (fun hc => h1 (hc ▸ List.mem_cons_self _ _))
    | cons c cs =>
      simp only [List.cons_append, List.cons.injEq] at h
      obtain ⟨hac, hrest⟩ := h
      obtain ⟨hl, hr⟩ := ih cs (fun hm => h1 (List.mem_cons_of_mem _ hm))
        (fun hm => h2 (List.mem_cons_of_mem _ hm)) hrest
      exact ⟨by rw [hac, hl], hr⟩

theorem digitChar_ne_dash (d : Nat) (h : d < 10) : Nat.digitChar d ≠ '-' := by
  interval_cases d <;> decide

theorem digitChar_value (d : Nat) (h : d < 10) : (Nat.digitChar d).toNat - 48 = d := by
  interval_cases d <;> rfl

theorem natChars_no_dash (n : Nat) : '-' ∉ natChars n := by
  unfold natChars
  split_ifs with h0
  · decide
  · intro hmem
    simp only [List.mem_map, List.mem_reverse] at hmem
    obtain ⟨d, hd, hc⟩ := hmem
    exact digitChar_ne_dash d (Nat.digits_lt_base (by decide) hd) hc

theorem decimalValue_digits (L : List Nat) (hL : ∀ d ∈ L, d < 10) :
    decimalValue (L.reverse.map Nat.digitChar) = Nat.ofDigits 10 L := by
  induction L with
  | nil => rfl
  | cons d t ih =>
    have ht := ih (fun x hx => hL x (List.mem_cons_of_mem _ hx))
    unfold decimalValue at ht ⊢
    rw [List.reverse_cons, List.map_append, List.foldl_append, ht, Nat.ofDigits_cons]
    simp only [List.map_cons, List.map_nil, List.foldl_cons, List.foldl_nil]
    rw [digitChar_value d (hL d (List.mem_cons_self _ _))]
    omega

theorem decimalValue_natChars (n : Nat) : decimalValue (natChars n) = n := by
  unfold natChars
  split_ifs with h0
  · subst h0; rfl
  · rw [decimalValue_digits _ (fun d hd => Nat.digits_lt_base (by decide) hd),
      Nat.ofDigits_digits]

theorem natChars_injective (m n : Nat) (h : natChars m = natChars n) : m = n := by
  have := congrArg decimalValue h
  rwa [decimalValue_natChars, decimalValue_natChars] at this

theorem natChars_ne_nil (n : Nat) : natChars n ≠ [] := by
  intro h
  have h1 := decimalValue_natChars n
  rw [h] at h1
  have h0 : n = 0 := h1.symm
  subst h0
  exact List.noConfusion h

theorem decimalNat_data (n : Nat) : (decimalNat n).data = natChars n := by
  unfold decimalNat natChars
  split_ifs <;> rfl

theorem toString_int_data (n : Int) :
    (toString n).data = if n < 0 then '-' :: natChars n.natAbs else natChars n.natAbs := by
  rw [toString_int_eq_decimal]
  unfold decimal
  split_ifs
  · rw [String.data_append, decimalNat_data]; rfl
  · exact decimalNat_data _

theorem toString_int_split (i1 i2 : Int) (r1 r2 : List Char)
    (h : (toString i1).data ++ '-' :: r1 = (toString i2).data ++ '-' :: r2) :
    i1 = i2 ∧ r1 = r2 := by
  rw [toString_int_data, toString_int_data] at h
  by_cases h1 : i1 < 0 <;> by_cases h2 : i2 < 0
  · simp only [h1, h2, if_true, List.cons_append, List.cons.injEq, true_and] at h
    obtain ⟨hl, hr⟩ := split_at_dash _ _ _ _ (natChars_no_dash _) (natChars_no_dash _) h
    have := natChars_injective _ _ hl
    exact ⟨by omega, hr⟩
  · simp only [h1, h2, if_true, if_false, List.cons_append] at h
    exfalso
    cases hc : natChars i2.natAbs with
    | nil => exact natChars_ne_nil _ hc
    | cons c cs =>
      rw [hc] at h
      simp only [List.cons_append, List.cons.injEq] at h
      have hmem : '-' ∈ natChars i2.natAbs := by
        rw [hc, ← h.1]; exact List.mem_cons_self _ _
      exact natChars_no_dash _ hmem
  · simp only [h1, h2, if_true, if_false, List.cons_append] at h
    exfalso
    cases hc : natChars i1.natAbs with
    | nil => exact natChars_ne_nil _ hc
    | cons c cs =>
      rw [hc] at h
      simp only [List.cons_append, List.cons.injEq] at h
      have hmem : '-' ∈ natChars i1.natAbs := by
        rw [hc, h.1]; exact List.mem_cons_self _ _
      exact natChars_no_dash _ hmem
  · simp only [h1, h2, if_false] at h
    obtain ⟨hl, hr⟩ := split_at_dash _ _ _ _ (natChars_no_dash _) (natChars_no_dash _) h
    have := natChars_injective _ _ hl
    exact ⟨by omega, hr⟩

theorem toString_int_injective (i1 i2 : Int) (h : toString i1 = toString i2) : i1 = i2 :=
  (toString_int_split i1 i2 [] [] (by rw [h])).1

theorem generateCacheKey_data (row : models.MeasureRow) :
    (generateCacheKey row).data =
      row.Country.data ++ '-' :: (row.Channel.data ++ '-' ::
        ((toString row.Impressions).data ++ '-' :: row.InventoryID.data)) := by
  unfold generateCacheKey
  simp only [String.data_append, List.append_assoc]
  rfl

theorem generateCacheKey_injective_of_noDash (r1 r2 : models.MeasureRow)
    (h1 : noDash r1.Country) (h2 : noDash r1.Channel)
    (h3 : noDash r2.Country) (h4 : noDash r2.Channel)
    (h : generateCacheKey r1 = generateCacheKey r2) :
    r1.Country = r2.Country ∧ r1.Channel = r2.Channel ∧
      r1.Impressions = r2.Impressions ∧ r1.InventoryID = r2.InventoryID := by
  have hd := congrArg String.data h
  rw [generateCacheKey_data, generateCacheKey_data] at hd
  obtain ⟨hco, hrest⟩ := split_at_dash _ _ _ _ h1 h3 hd
  obtain ⟨hch, hrest2⟩ := split_at_dash _ _ _ _ h2 h4 hrest
  obtain ⟨himp, hinv⟩ := toString_int_split _ _ _ _ hrest2
  exact ⟨String.ext hco, String.ext hch, himp, String.ext hinv⟩

theorem split_at_index {α : Type} (W : List α) (i : Nat) (w : α) (h : W[i]? = some w) :
    W = W.take i ++ w :: W.drop (i + 1) := by
  obtain ⟨hlt, hget⟩ := List.getElem?_eq_some.mp h
  conv_lhs => rw [← List.take_append_drop i W]
  rw [List.drop_eq_getElem_cons hlt, hget]

theorem applyWrites_append {σ F : Type} (cache : CacheRepository σ F) (s : σ)
    (ws1 ws2 : List (String × CacheValue F × Bool)) :
    applyWrites cache s (ws1 ++ ws2) = applyWrites cache (applyWrites cache s ws1) ws2 := by
  unfold applyWrites
  rw [List.foldl_append]

theorem applyWrites_frame {σ F : Type} (cache : CacheRepository σ F)
    (obs : σ → Option (CacheValue F)) (key : String)
    (hframe : ∀ st k1 v p, k1 ≠ key → obs (cache.Set st k1 v p) = obs st)
    (ws : List (String × CacheValue F × Bool)) (hws : ∀ w ∈ ws, w.1 ≠ key) (st : σ) :
    obs (applyWrites cache st ws) = obs st := by
  induction ws generalizing st with
  | nil => rfl
  | cons w rest ih =>
    have hstep : applyWrites cache st (w :: rest) =
        applyWrites cache (cache.Set st w.1 w.2.1 w.2.2) rest := rfl
    rw [hstep, ih (fun x hx => hws x (List.mem_cons_of_mem _ hx)),
      hframe st w.1 w.2.1 w.2.2 (hws w (List.mem_cons_self _ _))]

theorem GetMeasure_store_eq {σ F : Type} [Zero F] [Add F] (cache : CacheRepository σ F)
    (client : Scope3Client F) (requestID : String) (s : σ) (req : models.MeasureRequest)
    (h : validRequest req) (hmiss : missRows cache s req.Rows ≠ [])
    (apiResponse : scope3.MeasureResponse F)
    (hres : client.GetEmissions (resolverRequest (missRows cache s req.Rows)) =
      (some apiResponse, GoError.nil)) :
    (GetMeasure cache client requestID s req).store =
      applyWrites cache s
        (pairedWrites req.Rows (missRows cache s req.Rows) apiResponse.Rows) := by
  rw [GetMeasure_resolved cache client requestID s req h hmiss apiResponse hres]
  simp only [writesOf_eq_zipWith]
  rfl

theorem pairedWrites_getElem? {F : Type} (rows : List models.MeasureRow)
    (uncachedRows : List scope3.MeasureRow) (apiRows : List (scope3.MeasureRowResponse F))
    (i : Nat) (u : scope3.MeasureRow) (a : scope3.MeasureRowResponse F)
    (hu : uncachedRows[i]? = some u) (ha : apiRows[i]? = some a) :
    (pairedWrites rows uncachedRows apiRows)[i]? =
      some (uncachedKey u, CacheValue.record a, originatingFlag rows (uncachedKey u)) := by
  unfold pairedWrites
  rw [List.getElem?_zipWith, hu, ha]

theorem pairedWrites_later_keys {F : Type} (rows : List models.MeasureRow)
    (uncachedRows : List scope3.MeasureRow) (apiRows : List (scope3.MeasureRowResponse F))
    (i : Nat) (key : String)
    (hlast : ∀ j u1, i < j → j < apiRows.length → uncachedRows[j]? = some u1 →
      uncachedKey u1 ≠ key) :
    ∀ w ∈ (pairedWrites rows uncachedRows apiRows).drop (i + 1), w.1 ≠ key := by
  intro w hw
  obtain ⟨j, hj⟩ := List.getElem?_of_mem hw
  rw [List.getElem?_drop] at hj
  unfold pairedWrites at hj
  rw [List.getElem?_zipWith] at hj
  cases hu1 : uncachedRows[i + 1 + j]? with
  | none => rw [hu1] at hj; exact Option.noConfusion hj
  | some u1 =>
    cases ha1 : apiRows[i + 1 + j]? with
    | none => rw [hu1, ha1] at hj; exact Option.noConfusion hj
    | some a1 =>
      rw [hu1, ha1] at hj
      simp only [Option.some.injEq] at hj
      rw [← hj]
      obtain ⟨hlt, _⟩ := List.getElem?_eq_some.mp ha1
      exact hlast (i + 1 + j) u1 (by omega) hlt hu1

theorem GetMeasure_store_split {σ F : Type} [Zero F] [Add F] (cache : CacheRepository σ F)
    (client : Scope3Client F) (requestID : String) (s : σ) (req : models.MeasureRequest)
    (h : validRequest req) (apiResponse : scope3.MeasureResponse F)
    (hres : client.GetEmissions (resolverRequest (missRows cache s req.Rows)) =
      (some apiResponse, GoError.nil))
    (i : Nat) (u : scope3.MeasureRow) (a : scope3.MeasureRowResponse F)
    (hu : (missRows cache s req.Rows)[i]? = some u) (ha : apiResponse.Rows[i]? = some a) :
    (GetMeasure cache client requestID s req).store =
      applyWrites cache
        (cache.Set
          (applyWrites cache s
            ((pairedWrites req.Rows (missRows cache s req.Rows) apiResponse.Rows).take i))
          (uncachedKey u) (CacheValue.record a) (originatingFlag req.Rows (uncachedKey u)))
        ((pairedWrites req.Rows (missRows cache s req.Rows) apiResponse.Rows).drop (i + 1)) := by
  have hmiss : missRows cache s req.Rows ≠ [] := by
    intro hnil
    rw [hnil] at hu
    simp at hu
  rw [GetMeasure_store_eq cache client requestID s req h hmiss apiResponse hres]
  have hsplit := split_at_index _ i _
    (pairedWrites_getElem? req.Rows _ _ i u a hu ha)
  conv_lhs => rw [hsplit]
  rw [applyWrites_append]
  rfl

theorem GetMeasure_readback {σ F : Type} [Zero F] [Add F] (cache : CacheRepository σ F)
    (client : Scope3Client F) (requestID : String) (s : σ) (req : models.MeasureRequest)
    (h : validRequest req) (apiResponse : scope3.MeasureResponse F)
    (hres : client.GetEmissions (resolverRequest (missRows cache s req.Rows)) =
      (some apiResponse, GoError.nil))
    (i : Nat) (u : scope3.MeasureRow) (a : scope3.MeasureRowResponse F)
    (hu : (missRows cache s req.Rows)[i]? = some u) (ha : apiResponse.Rows[i]? = some a)
    (obs : σ → Option (CacheValue F))
    (hset : ∀ st v p, obs (cache.Set st (uncachedKey u) v p) = some v)
    (hframe : ∀ st k1 v p, k1 ≠ uncachedKey u → obs (cache.Set st k1 v p) = obs st)
    (hlast : ∀ j u1, i < j → j < apiResponse.Rows.length →
      (missRows cache s req.Rows)[j]? = some u1 → uncachedKey u1 ≠ uncachedKey u) :
    obs (GetMeasure cache client requestID s req).store = some (CacheValue.record a) := by
  rw [GetMeasure_store_split cache client requestID s req h apiResponse hres i u a hu ha,
    applyWrites_frame cache obs (uncachedKey u) hframe _
      (pairedWrites_later_keys req.Rows _ _ i (uncachedKey u) hlast),
    hset]

theorem stored_Set_self {F : Type} (key : String) (ec : cache.EmissionsCache F)
    (v : CacheValue F) (p : Bool) :
    cache.EmissionsCache.stored key ((cache.EmissionsCache.repository F).Set ec key v p) =
      some v := by
  show cache.EmissionsCache.stored key (cache.EmissionsCache.Set ec key v p) = some v
  rw [EmissionsCache_Set_eq]
  simp [cache.EmissionsCache.stored, gomap_get_set]

theorem stored_Set_other {F : Type} (key : String) (ec : cache.EmissionsCache F)
    (k1 : String) (v : CacheValue F) (p : Bool) (hk : k1 ≠ key) :
    cache.EmissionsCache.stored key ((cache.EmissionsCache.repository F).Set ec k1 v p) =
      cache.EmissionsCache.stored key ec := by
  show cache.EmissionsCache.stored key (cache.EmissionsCache.Set ec k1 v p) =
    cache.EmissionsCache.stored key ec
  rw [EmissionsCache_Set_eq]
  have hk1 : ¬ key = k1 := fun h => hk h.symm
  simp [cache.EmissionsCache.stored, gomap_get_set, hk1]

/-! ## The claims -/

/-- C1: `GetMeasure` returns no response and an error of type ValidationError
if and only if the row list is empty or some row has an empty country, an
empty channel, impressions `≤ 0` or an empty inventoryId; and, for every
cache, store state and resolver, an error of type ValidationError is returned
(with or without a response) exactly in that case, so a request whose rows
are all valid never yields one. -/
theorem GetMeasure_validationError_iff {σ F : Type} [Zero F] [Add F]
    (cache : CacheRepository σ F) (client : Scope3Client F) (requestID : String) (s : σ)
    (req : models.MeasureRequest) :
    (failsWith ErrorType.ErrorTypeValidation (GetMeasure cache client requestID s req).out = true
        ↔ (req.Rows = [] ∨ ∃ row ∈ req.Rows,
            row.Country = "" ∨ row.Channel = "" ∨ row.Impressions ≤ 0 ∨ row.InventoryID = "")) ∧
      ((∃ resp err, (GetMeasure cache client requestID s req).out = Outcome.returned resp err ∧
          hasType ErrorType.ErrorTypeValidation err = true)
        ↔ (req.Rows = [] ∨ ∃ row ∈ req.Rows,
            row.Country = "" ∨ row.Channel = "" ∨ row.Impressions ≤ 0 ∨ row.InventoryID = "")) := by
  have key := not_validRequest_iff req
  simp only [rowInvalid] at key
  rw [← key]
  by_cases hv : validRequest req
  · have h2 : ¬ ∃ resp err,
        (GetMeasure cache client requestID s req).out = Outcome.returned resp err ∧
          hasType ErrorType.ErrorTypeValidation err = true := by
      rintro ⟨resp, err, hout, ht⟩
      rw [GetMeasure_valid_not_validation cache client requestID s req hv resp err hout] at ht
      exact Bool.noConfusion ht
    have h1 : ¬ failsWith ErrorType.ErrorTypeValidation
        (GetMeasure cache client requestID s req).out = true := by
      intro hf
      apply h2
      cases hout : (GetMeasure cache client requestID s req).out with
      | panic => rw [hout] at hf; simp [failsWith] at hf
      | returned resp err =>
        rw [hout] at hf
        cases resp with
        | none => exact ⟨none, err, rfl, by simpa [failsWith] using hf⟩
        | some r => simp [failsWith] at hf
    simp [h1, h2, hv]
  · obtain ⟨err, ht, heq⟩ := GetMeasure_invalid cache client requestID s req hv
    have h1 : failsWith ErrorType.ErrorTypeValidation
        (GetMeasure cache client requestID s req).out = true := by
      rw [heq]; simpa [failsWith] using ht
    have h2 : ∃ resp err,
        (GetMeasure cache client requestID s req).out = Outcome.returned resp err ∧
          hasType ErrorType.ErrorTypeValidation err = true := ⟨none, err, by rw [heq], ht⟩
    simp [h1, h2, hv]

/-- C2: for a request that is empty or contains at least one invalid row
(wherever it stands), `GetMeasure` fails with a ValidationError and makes no
call at all: its trace is empty, so there is no cache lookup, no cache write
and no resolver invocation, and the store after the call is the store before
it. -/
theorem GetMeasure_invalid_no_effect {σ F : Type} [Zero F] [Add F]
    (cache : CacheRepository σ F) (client : Scope3Client F) (requestID : String) (s : σ)
    (req : models.MeasureRequest)
    (h : req.Rows = [] ∨ ∃ row ∈ req.Rows, rowInvalid row) :
    failsWith ErrorType.ErrorTypeValidation (GetMeasure cache client requestID s req).out = true ∧
      (GetMeasure cache client requestID s req).trace = [] ∧
      cacheLookups (GetMeasure cache client requestID s req).trace = [] ∧
      cacheWrites (GetMeasure cache client requestID s req).trace = [] ∧
      (resolverCalls (GetMeasure cache client requestID s req).trace).length = 0 ∧
      (GetMeasure cache client requestID s req).store = s := by
  obtain ⟨err, ht, heq⟩ :=
    GetMeasure_invalid cache client requestID s req ((not_validRequest_iff req).mpr h)
  rw [heq]
  simp [failsWith, ht, cacheLookups, cacheWrites, resolverCalls]

/-- Witness of C2: a request whose last row is invalid, against a store that
caches the first row and a resolver that would answer. -/
theorem GetMeasure_invalid_no_effect_witness :
    (({ Rows := [scenario.rowUS, scenario.rowBad] } : models.MeasureRequest).Rows = [] ∨
        ∃ row ∈ ({ Rows := [scenario.rowUS, scenario.rowBad] } : models.MeasureRequest).Rows,
          rowInvalid row) ∧
      (failsWith ErrorType.ErrorTypeValidation
          (GetMeasure (cache.EmissionsCache.repository Int) scenario.clientUK "id"
            scenario.storeUS { Rows := [scenario.rowUS, scenario.rowBad] }).out = true ∧
        (GetMeasure (cache.EmissionsCache.repository Int) scenario.clientUK "id"
            scenario.storeUS { Rows := [scenario.rowUS, scenario.rowBad] }).trace = [] ∧
        cacheLookups (GetMeasure (cache.EmissionsCache.repository Int) scenario.clientUK "id"
            scenario.storeUS { Rows := [scenario.rowUS, scenario.rowBad] }).trace = [] ∧
        cacheWrites (GetMeasure (cache.EmissionsCache.repository Int) scenario.clientUK "id"
            scenario.storeUS { Rows := [scenario.rowUS, scenario.rowBad] }).trace = [] ∧
        (resolverCalls (GetMeasure (cache.EmissionsCache.repository Int) scenario.clientUK "id"
            scenario.storeUS { Rows := [scenario.rowUS, scenario.rowBad] }).trace).length = 0 ∧
        (GetMeasure (cache.EmissionsCache.repository Int) scenario.clientUK "id"
            scenario.storeUS { Rows := [scenario.rowUS, scenario.rowBad] }).store
          = scenario.storeUS) :=
  ⟨by decide,
    GetMeasure_invalid_no_effect (cache.EmissionsCache.repository Int) scenario.clientUK "id"
      scenario.storeUS { Rows := [scenario.rowUS, scenario.rowBad] } (by decide)⟩

/-- C3: for a non-empty valid batch in which the key of every row is present
in the store holding a resolved emissions record, `GetMeasure` returns a
response and no error, never invokes the resolver, writes nothing, and the
response has one row per request row, each with `cached = true`. -/
theorem GetMeasure_all_cached {σ F : Type} [Zero F] [Add F]
    (cache : CacheRepository σ F) (client : Scope3Client F) (requestID : String) (s : σ)
    (req : models.MeasureRequest) (hvalid : validRequest req)
    (hhit : ∀ row ∈ req.Rows,
      ∃ r, cache.Get s (generateCacheKey row) = some (CacheValue.record r)) :
    ∃ resp,
      (GetMeasure cache client requestID s req).out =
        Outcome.returned (some resp) GoError.nil ∧
      resolverCalls (GetMeasure cache client requestID s req).trace = [] ∧
      cacheWrites (GetMeasure cache client requestID s req).trace = [] ∧
      resp.Rows.length = req.Rows.length ∧
      ∀ r ∈ resp.Rows, r.Cached = true := by
  have hmiss := missRows_eq_nil_of_hit cache s req.Rows hhit
  rw [GetMeasure_allHit cache client requestID s req hvalid hmiss]
  exact ⟨_, rfl, resolverCalls_lookupEvents req.Rows, cacheWrites_lookupEvents req.Rows,
    hitRows_length_of_hit cache s req.Rows hhit, hitRows_cached cache s req.Rows⟩

/-- Witness of C3: the all-cached test of the repository, with a resolver that
would fail if it were called. -/
theorem GetMeasure_all_cached_witness :
    validRequest scenario.reqBoth ∧
      (∀ row ∈ scenario.reqBoth.Rows,
        ∃ r, (cache.EmissionsCache.repository Int).Get scenario.storeBoth (generateCacheKey row) =
          some (CacheValue.record r)) ∧
      ∃ resp,
        (GetMeasure (cache.EmissionsCache.repository Int) scenario.clientDown "id"
          scenario.storeBoth scenario.reqBoth).out = Outcome.returned (some resp) GoError.nil ∧
        resolverCalls (GetMeasure (cache.EmissionsCache.repository Int) scenario.clientDown "id"
          scenario.storeBoth scenario.reqBoth).trace = [] ∧
        cacheWrites (GetMeasure (cache.EmissionsCache.repository Int) scenario.clientDown "id"
          scenario.storeBoth scenario.reqBoth).trace = [] ∧
        resp.Rows.length = scenario.reqBoth.Rows.length ∧
        ∀ r ∈ resp.Rows, r.Cached = true :=
  have hhit : ∀ row ∈ scenario.reqBoth.Rows,
      ∃ r, (cache.EmissionsCache.repository Int).Get scenario.storeBoth (generateCacheKey row) =
        some (CacheValue.record r) := by
    intro row hrow
    simp only [scenario.reqBoth, List.mem_cons, List.mem_singleton, List.not_mem_nil,
      or_false] at hrow
    rcases hrow with rfl | rfl
    · exact ⟨scenario.recordUS, by decide⟩
    · exact ⟨scenario.recordUK, by decide⟩
  ⟨by decide, hhit,
    GetMeasure_all_cached (cache.EmissionsCache.repository Int) scenario.clientDown "id"
      scenario.storeBoth scenario.reqBoth (by decide) hhit⟩

/-- C4: for a non-empty valid batch none of whose keys is in the store,
`GetMeasure` invokes the resolver exactly once, with a batch that has the
length and the order of the request rows, row `i` carrying the country,
channel, impressions, inventoryId and utcDatetime of request row `i`; every
row of a response it returns carries `cached = false`; and it does return a
response, one row per resolver record, when the resolver succeeds with at most
one record per row. -/
theorem GetMeasure_no_hits {σ F : Type} [Zero F] [Add F]
    (cache : CacheRepository σ F) (client : Scope3Client F) (requestID : String) (s : σ)
    (req : models.MeasureRequest) (hvalid : validRequest req)
    (hnone : ∀ row ∈ req.Rows, cache.Get s (generateCacheKey row) = none) :
    resolverCalls (GetMeasure cache client requestID s req).trace =
        [{ Rows := req.Rows.map (fun row =>
              { Country := row.Country, Channel := row.Channel, Impressions := row.Impressions
                InventoryID := row.InventoryID, UTCDatetime := row.UTCDatetime })
           IncludeRows := false, Latest := false, Fields := "" }] ∧
      (∀ resp err,
        (GetMeasure cache client requestID s req).out = Outcome.returned (some resp) err →
          ∀ r ∈ resp.Rows, r.Cached = false) ∧
      (∀ apiResponse,
        client.GetEmissions (resolverRequest (req.Rows.map toUncached)) =
            (some apiResponse, GoError.nil) →
          apiResponse.Rows.length ≤ req.Rows.length →
          ∃ resp,
            (GetMeasure cache client requestID s req).out =
              Outcome.returned (some resp) GoError.nil ∧
            resp.Rows.length = apiResponse.Rows.length) := by
  have hall : ∀ row ∈ req.Rows, isMiss cache s row = true := by
    intro row hrow
    simp [isMiss, hnone row hrow]
  have hmap := missRows_eq_map_of_miss cache s req.Rows hall
  have hhits := hitRows_eq_nil_of_miss cache s req.Rows hall
  have hne : missRows cache s req.Rows ≠ [] := by
    rw [hmap]
    simpa using hvalid.1
  refine ⟨?_, ?_, ?_⟩
  · rw [GetMeasure_resolverCalls cache client requestID s req hvalid, if_neg hne, hmap]
    rfl
  · intro resp err hout r hr
    obtain ⟨apiResponse, _, _, _, hresp⟩ :=
      GetMeasure_success cache client requestID s req hvalid hne resp err hout
    rw [hresp, hhits] at hr
    simp only [List.nil_append, List.mem_map] at hr
    obtain ⟨a, _, rfl⟩ := hr
    exact apiRowResponse_cached a
  · intro apiResponse hres hlen
    rw [← hmap] at hres
    have hlen1 : apiResponse.Rows.length ≤ (missRows cache s req.Rows).length := by
      rw [hmap]; simpa using hlen
    rw [GetMeasure_resolved cache client requestID s req hvalid hne apiResponse hres]
    simp only [hlen1, if_true, hhits, List.nil_append]
    refine ⟨_, rfl, ?_⟩
    simp only [List.length_map, List.length_zip]
    omega

/-- Witness of C4: both rows of the tests against an empty store and a
resolver that returns two records. -/
theorem GetMeasure_no_hits_witness :
    validRequest scenario.reqBoth ∧
      (∀ row ∈ scenario.reqBoth.Rows,
        (cache.EmissionsCache.repository Int).Get scenario.storeEmpty (generateCacheKey row) =
          none) ∧
      (GetMeasure (cache.EmissionsCache.repository Int) scenario.clientTwo "id"
          scenario.storeEmpty scenario.reqBoth).out =
        Outcome.returned
          (some { RequestID := "id", TotalEmissions := (100 : Int)
                  Rows := [{ PropertyID := 1, PropertyName := "Property 1", TotalEmissions := 60
                             Cached := false, InventoryCoverage := "" },
                           { PropertyID := 2, PropertyName := "Property 2", TotalEmissions := 40
                             Cached := false, InventoryCoverage := "" }] }) GoError.nil ∧
      resolverCalls (GetMeasure (cache.EmissionsCache.repository Int) scenario.clientTwo "id"
          scenario.storeEmpty scenario.reqBoth).trace =
        [{ Rows := scenario.reqBoth.Rows.map (fun row =>
              { Country := row.Country, Channel := row.Channel, Impressions := row.Impressions
                InventoryID := row.InventoryID, UTCDatetime := row.UTCDatetime })
           IncludeRows := false, Latest := false, Fields := "" }] :=
  ⟨by decide, by decide, by decide,
    (GetMeasure_no_hits (cache.EmissionsCache.repository Int) scenario.clientTwo "id"
      scenario.storeEmpty scenario.reqBoth (by decide) (by decide)).1⟩

/-- C5: whenever `GetMeasure` returns a response, on the all-cached path as on
the resolver path, the response's totalEmissions is the sum, accumulated from
zero in row order, of the totalEmissions fields of the rows of the response. -/
theorem GetMeasure_total_is_sum {σ F : Type} [Zero F] [Add F]
    (cache : CacheRepository σ F) (client : Scope3Client F) (requestID : String) (s : σ)
    (req : models.MeasureRequest) (resp : models.MeasureResponse F) (err : GoError)
    (hout : (GetMeasure cache client requestID s req).out = Outcome.returned (some resp) err) :
    resp.TotalEmissions = resp.Rows.foldl (fun total row => total + row.TotalEmissions) 0 := by
  by_cases hvalid : validRequest req
  · by_cases hmiss : missRows cache s req.Rows = []
    · rw [GetMeasure_allHit cache client requestID s req hvalid hmiss] at hout
      simp only [Outcome.returned.injEq, Option.some.injEq] at hout
      rw [← hout.1]
      rfl
    · obtain ⟨apiResponse, _, _, _, hresp⟩ :=
        GetMeasure_success cache client requestID s req hvalid hmiss resp err hout
      rw [hresp]
      rfl
  · obtain ⟨e, _, heq⟩ := GetMeasure_invalid cache client requestID s req hvalid
    rw [heq] at hout
    simp only [Outcome.returned.injEq] at hout
    exact Option.noConfusion hout.1

/-- Witness of C5: the partial-cache test of the repository, one hit of 60 and
one resolved record of 40. -/
theorem GetMeasure_total_is_sum_witness :
    (GetMeasure (cache.EmissionsCache.repository Int) scenario.clientUK "id"
        scenario.storeUS scenario.reqBoth).out =
      Outcome.returned
        (some { RequestID := "id", TotalEmissions := (100 : Int)
                Rows := [{ PropertyID := 1, PropertyName := "Property 1", TotalEmissions := 60
                           Cached := true, InventoryCoverage := "" },
                         { PropertyID := 2, PropertyName := "Property 2", TotalEmissions := 40
                           Cached := false, InventoryCoverage := "" }] }) GoError.nil ∧
      (100 : Int) =
        ([{ PropertyID := 1, PropertyName := "Property 1", TotalEmissions := 60
            Cached := true, InventoryCoverage := "" },
          { PropertyID := 2, PropertyName := "Property 2", TotalEmissions := 40
            Cached := false, InventoryCoverage := "" }] :
          List (models.MeasureRowResponse Int)).foldl
            (fun total row => total + row.TotalEmissions) 0 :=
  have hout : (GetMeasure (cache.EmissionsCache.repository Int) scenario.clientUK "id"
        scenario.storeUS scenario.reqBoth).out =
      Outcome.returned
        (some { RequestID := "id", TotalEmissions := (100 : Int)
                Rows := [{ PropertyID := 1, PropertyName := "Property 1", TotalEmissions := 60
                           Cached := true, InventoryCoverage := "" },
                         { PropertyID := 2, PropertyName := "Property 2", TotalEmissions := 40
                           Cached := false, InventoryCoverage := "" }] }) GoError.nil := by
    decide
  ⟨hout,
    GetMeasure_total_is_sum (cache.EmissionsCache.repository Int) scenario.clientUK "id"
      scenario.storeUS scenario.reqBoth _ GoError.nil hout⟩

/-- C6: for a valid batch with at least one cache miss, if the resolver call
returns an error, whatever its kind, `GetMeasure` returns no response and an
ExternalError that wraps it, and performs no cache write: the store after the
call is the store before it, also when other rows of the batch were hits. -/
theorem GetMeasure_resolver_failure {σ F : Type} [Zero F] [Add F]
    (cache : CacheRepository σ F) (client : Scope3Client F) (requestID : String) (s : σ)
    (req : models.MeasureRequest) (hvalid : validRequest req)
    (hmiss : ∃ row ∈ req.Rows, isMiss cache s row = true)
    (herr : (client.GetEmissions (resolverRequest (missRows cache s req.Rows))).2 ≠
      GoError.nil) :
    (GetMeasure cache client requestID s req).out =
        Outcome.returned none
          (GoError.ServiceError ErrorType.ErrorTypeExternal
            "failed to fetch emissions data from Scope3"
            (client.GetEmissions (resolverRequest (missRows cache s req.Rows))).2) ∧
      failsWith ErrorType.ErrorTypeExternal (GetMeasure cache client requestID s req).out = true ∧
      cacheWrites (GetMeasure cache client requestID s req).trace = [] ∧
      (GetMeasure cache client requestID s req).store = s := by
  obtain ⟨row, hrow, hm⟩ := hmiss
  have hne := missRows_ne_nil_of_miss cache s req.Rows row hrow hm
  rw [GetMeasure_resolverFailed cache client requestID s req hvalid hne herr]
  refine ⟨rfl, rfl, ?_, rfl⟩
  simp only [cacheWrites_append, cacheWrites_lookupEvents]
  rfl

/-- Witness of C6: the first row is a hit, the second a miss, and the resolver
is down. -/
theorem GetMeasure_resolver_failure_witness :
    validRequest scenario.reqBoth ∧
      (∃ row ∈ scenario.reqBoth.Rows,
        isMiss (cache.EmissionsCache.repository Int) scenario.storeUS row = true) ∧
      (scenario.clientDown.GetEmissions (resolverRequest
        (missRows (cache.EmissionsCache.repository Int) scenario.storeUS
          scenario.reqBoth.Rows))).2 ≠ GoError.nil ∧
      (GetMeasure (cache.EmissionsCache.repository Int) scenario.clientDown "id"
          scenario.storeUS scenario.reqBoth).out =
        Outcome.returned none
          (GoError.ServiceError ErrorType.ErrorTypeExternal
            "failed to fetch emissions data from Scope3" (GoError.other "connection refused")) ∧
      (GetMeasure (cache.EmissionsCache.repository Int) scenario.clientDown "id"
          scenario.storeUS scenario.reqBoth).store = scenario.storeUS :=
  have h := GetMeasure_resolver_failure (cache.EmissionsCache.repository Int)
    scenario.clientDown "id" scenario.storeUS scenario.reqBoth (by decide) (by decide)
    (by decide)
  ⟨by decide, by decide, by decide, h.1, h.2.2.2⟩

/-- C7: on resolver success, with the `EmissionsCache` as the store, the cache
writes of `GetMeasure` are, in order, one per resolved row `i`: the resolver's
record `i`, unmodified, under the key rebuilt from uncached-batch row `i`,
with the priority flag of the originating request row of that key, which is
the last row of the request with that key (so one flag serves every write to
the key). After the call the store holds, under the key of every resolved
row, the record of the last resolved row with that key, and the entry is
permanent exactly when that flag is true. -/
theorem GetMeasure_write_back {F : Type} [Zero F] [Add F]
    (client : Scope3Client F) (requestID : String) (ec : cache.EmissionsCache F)
    (req : models.MeasureRequest) (hvalid : validRequest req)
    (apiResponse : scope3.MeasureResponse F)
    (hres : client.GetEmissions
        (resolverRequest (missRows (cache.EmissionsCache.repository F) ec req.Rows)) =
      (some apiResponse, GoError.nil)) :
    cacheWrites (GetMeasure (cache.EmissionsCache.repository F) client requestID ec req).trace =
        List.zipWith (fun u a =>
          (uncachedKey u, CacheValue.record a, originatingFlag req.Rows (uncachedKey u)))
          (missRows (cache.EmissionsCache.repository F) ec req.Rows) apiResponse.Rows ∧
      (∀ u ∈ missRows (cache.EmissionsCache.repository F) ec req.Rows,
        ∃ row pre post, req.Rows = pre ++ row :: post ∧
          generateCacheKey row = uncachedKey u ∧
          (∀ r ∈ post, generateCacheKey r ≠ uncachedKey u) ∧
          originatingFlag req.Rows (uncachedKey u) = row.IsPriority) ∧
      (∀ k u a,
        ((missRows (cache.EmissionsCache.repository F) ec req.Rows).zip
            apiResponse.Rows).reverse.find? (fun p => decide (uncachedKey p.1 = k)) =
          some (u, a) →
        gomap.get (GetMeasure (cache.EmissionsCache.repository F) client requestID ec
            req).store.store.items k =
          some { Object := CacheValue.record a
                 Expiration :=
                   if originatingFlag req.Rows k = true then gocache.Expiry.Permanent
                   else gocache.Expiry.Timed (ec.store.now + ec.store.defaultExpiration) }) ∧
      (∀ p ∈ (missRows (cache.EmissionsCache.repository F) ec req.Rows).zip apiResponse.Rows,
        ∃ a item, a ∈ apiResponse.Rows ∧
          gomap.get (GetMeasure (cache.EmissionsCache.repository F) client requestID ec
            req).store.store.items (uncachedKey p.1) = some item ∧
          item.Object = CacheValue.record a ∧
          (item.Expiration = gocache.Expiry.Permanent ↔
            originatingFlag req.Rows (uncachedKey p.1) = true)) := by
  by_cases hmiss : missRows (cache.EmissionsCache.repository F) ec req.Rows = []
  · rw [GetMeasure_allHit (cache.EmissionsCache.repository F) client requestID ec req hvalid
      hmiss]
    simp [hmiss, cacheWrites_lookupEvents]
  · have hstore := GetMeasure_store_resolved client requestID ec req hvalid hmiss apiResponse
      hres
    refine ⟨GetMeasure_cacheWrites_resolved (cache.EmissionsCache.repository F) client
      requestID ec req hvalid hmiss apiResponse hres, ?_, hstore, ?_⟩
    · intro u hu
      obtain ⟨row, hrow⟩ :=
        originatingRow_isSome_of_miss (cache.EmissionsCache.repository F) ec req.Rows u hu
      obtain ⟨hk, pre, post, hsplit, hpost⟩ := originatingRow_last req.Rows _ row hrow
      refine ⟨row, pre, post, hsplit, hk, hpost, ?_⟩
      simp [originatingFlag, hrow]
    · intro p hp
      have hsome : (((missRows (cache.EmissionsCache.repository F) ec req.Rows).zip
          apiResponse.Rows).reverse.find?
            (fun q => decide (uncachedKey q.1 = uncachedKey p.1))).isSome = true := by
        rw [List.find?_isSome]
        exact ⟨p, by simpa using hp, by simp⟩
      obtain ⟨⟨u, a⟩, hua⟩ := Option.isSome_iff_exists.mp hsome
      have hmem : (u, a) ∈ (missRows (cache.EmissionsCache.repository F) ec req.Rows).zip
          apiResponse.Rows := by
        have := List.mem_of_find?_eq_some hua
        simpa using this
      refine ⟨a, _, (List.of_mem_zip hmem).2, hstore _ u a hua, rfl, ?_⟩
      by_cases hflag : originatingFlag req.Rows (uncachedKey p.1) = true
      · simp [hflag]
      · simp [hflag]

/-- Witness of C7: two rows share a key, the first without and the last with
the priority flag; both writes carry the flag of the last row and the store
ends with the second record, permanent. -/
theorem GetMeasure_write_back_witness :
    validRequest scenario.reqDup ∧
      scenario.clientTwo.GetEmissions
          (resolverRequest (missRows (cache.EmissionsCache.repository Int) scenario.storeEmpty
            scenario.reqDup.Rows)) =
        (some { RequestID := "api-req-002", TotalEmissions := 100
                Rows := [scenario.recordUS, scenario.recordUK] }, GoError.nil) ∧
      cacheWrites (GetMeasure (cache.EmissionsCache.repository Int) scenario.clientTwo "id"
          scenario.storeEmpty scenario.reqDup).trace =
        [("UK-tv-500-inv-002", CacheValue.record scenario.recordUS, true),
         ("UK-tv-500-inv-002", CacheValue.record scenario.recordUK, true)] ∧
      gomap.get (GetMeasure (cache.EmissionsCache.repository Int) scenario.clientTwo "id"
          scenario.storeEmpty scenario.reqDup).store.store.items "UK-tv-500-inv-002" =
        some { Object := CacheValue.record scenario.recordUK
               Expiration := gocache.Expiry.Permanent } :=
  have h := GetMeasure_write_back scenario.clientTwo "id" scenario.storeEmpty scenario.reqDup
    (by decide)
    { RequestID := "api-req-002", TotalEmissions := 100
      Rows := [scenario.recordUS, scenario.recordUK] } (by decide)
  ⟨by decide, by decide, h.1.trans (by decide),
    (h.2.2.1 "UK-tv-500-inv-002" (toUncached scenario.rowUK) scenario.recordUK
      (by decide)).trans (by decide)⟩

/-- C8: when the resolver succeeds and its record `i`, for uncached row `i`,
has `inventoryCoverage = "missing"`: the raw record, sentinel included, is
written to the store under the key of that row, that is, write `i` of the
call is `Set` with that key and that record, the store after the call is the
store on which this `Set` was made after the earlier writes, followed by the
later writes, and, when no later resolved row has the same key, whatever reads
the entry of that key reads the raw record after the call; in every response
returned the row after the hits at position `i` carries only the sentinel,
with `cached = false`, no propertyId, no propertyName and totalEmissions `0`,
and the response total is the sum over the response rows; the outcome of the
call does not depend on the totalEmissions the raw record carries; and a
response is returned when the resolver gives at most one record per uncached
row. -/
theorem GetMeasure_missing_coverage {σ F : Type} [Zero F] [Add F]
    (cache : CacheRepository σ F) (client : Scope3Client F) (requestID : String) (s : σ)
    (req : models.MeasureRequest) (hvalid : validRequest req)
    (apiResponse : scope3.MeasureResponse F)
    (hres : client.GetEmissions (resolverRequest (missRows cache s req.Rows)) =
      (some apiResponse, GoError.nil))
    (i : Nat) (u : scope3.MeasureRow) (a : scope3.MeasureRowResponse F)
    (hu : (missRows cache s req.Rows)[i]? = some u) (ha : apiResponse.Rows[i]? = some a)
    (hcov : a.InventoryCoverage = "missing") :
    (cacheWrites (GetMeasure cache client requestID s req).trace)[i]? =
        some (uncachedKey u, CacheValue.record a, originatingFlag req.Rows (uncachedKey u)) ∧
      (GetMeasure cache client requestID s req).store =
        applyWrites cache
          (cache.Set
            (applyWrites cache s
              ((pairedWrites req.Rows (missRows cache s req.Rows) apiResponse.Rows).take i))
            (uncachedKey u) (CacheValue.record a) (originatingFlag req.Rows (uncachedKey u)))
          ((pairedWrites req.Rows (missRows cache s req.Rows) apiResponse.Rows).drop (i + 1)) ∧
      (∀ obs : σ → Option (CacheValue F),
        (∀ st v p, obs (cache.Set st (uncachedKey u) v p) = some v) →
        (∀ st k1 v p, k1 ≠ uncachedKey u → obs (cache.Set st k1 v p) = obs st) →
        (∀ j u1, i < j → j < apiResponse.Rows.length →
          (missRows cache s req.Rows)[j]? = some u1 → uncachedKey u1 ≠ uncachedKey u) →
        obs (GetMeasure cache client requestID s req).store = some (CacheValue.record a)) ∧
      (∀ resp err,
        (GetMeasure cache client requestID s req).out = Outcome.returned (some resp) err →
          resp.Rows[(hitRows cache s req.Rows).length + i]? =
              some { PropertyID := 0, PropertyName := "", TotalEmissions := 0, Cached := false
                     InventoryCoverage := "missing" } ∧
            resp.TotalEmissions =
              resp.Rows.foldl (fun total row => total + row.TotalEmissions) 0) ∧
      (∀ (x : F) (client2 : Scope3Client F) (apiResponse2 : scope3.MeasureResponse F),
        client2.GetEmissions (resolverRequest (missRows cache s req.Rows)) =
            (some apiResponse2, GoError.nil) →
          apiResponse2.Rows = apiResponse.Rows.set i { a with TotalEmissions := x } →
          (GetMeasure cache client2 requestID s req).out =
            (GetMeasure cache client requestID s req).out) ∧
      (apiResponse.Rows.length ≤ (missRows cache s req.Rows).length →
        ∃ resp, (GetMeasure cache client requestID s req).out =
          Outcome.returned (some resp) GoError.nil) := by
  have hmiss : missRows cache s req.Rows ≠ [] := by
    intro hnil
    rw [hnil] at hu
    simp at hu
  refine ⟨?_, ?_, ?_, ?_, ?_, ?_⟩
  · rw [GetMeasure_cacheWrites_resolved cache client requestID s req hvalid hmiss apiResponse
      hres, List.getElem?_zipWith, hu, ha]
  · exact GetMeasure_store_split cache client requestID s req hvalid apiResponse hres i u a
      hu ha
  · intro obs hset hframe hlast
    exact GetMeasure_readback cache client requestID s req hvalid apiResponse hres i u a hu
      ha obs hset hframe hlast
  · intro resp err hout
    obtain ⟨apiResponse1, hres1, _, _, hresp⟩ :=
      GetMeasure_success cache client requestID s req hvalid hmiss resp err hout
    rw [hres] at hres1
    simp only [Prod.mk.injEq, Option.some.injEq, and_true] at hres1
    subst hres1
    rw [hresp]
    refine ⟨?_, rfl⟩
    simp only
    rw [List.getElem?_append_right (Nat.le_add_right _ _), Nat.add_sub_cancel_left,
      List.getElem?_map, ha, Option.map_some', apiRowResponse_missing a hcov]
  · intro x client2 apiResponse2 hres2 hset
    apply GetMeasure_out_congr cache client client2 requestID s req hvalid apiResponse
      apiResponse2 hres hres2
    rw [hset, List.map_set]
    have hsame : apiRowResponse { a with TotalEmissions := x } = apiRowResponse a := by
      rw [apiRowResponse_missing a hcov]
      exact apiRowResponse_missing _ hcov
    rw [hsame]
    apply List.ext_getElem?
    intro j
    rw [List.getElem?_set]
    split_ifs with hij hlt
    · subst hij
      rw [List.getElem?_map, ha]
      rfl
    · subst hij
      simp only [List.length_map, not_lt] at hlt
      rw [List.getElem?_eq_none (by simpa using hlt)]
    · rfl
  · intro hlen
    rw [GetMeasure_resolved cache client requestID s req hvalid hmiss apiResponse hres]
    simp only [hlen, if_true]
    exact ⟨_, rfl⟩

/-- Witness of C8: the resolver answers the one uncached row with a record
that carries the sentinel together with emissions 7 and a property identity;
after the call the store holds that record, as it came, under the key of the
row. -/
theorem GetMeasure_missing_coverage_witness :
    validRequest scenario.reqBoth ∧
      (GetMeasure (cache.EmissionsCache.repository Int) scenario.clientMissing "id"
          scenario.storeUS scenario.reqBoth).out =
        Outcome.returned
          (some { RequestID := "id", TotalEmissions := (60 : Int)
                  Rows := [{ PropertyID := 1, PropertyName := "Property 1", TotalEmissions := 60
                             Cached := true, InventoryCoverage := "" },
                           { PropertyID := 0, PropertyName := "", TotalEmissions := 0
                             Cached := false, InventoryCoverage := "missing" }] }) GoError.nil ∧
      (cacheWrites (GetMeasure (cache.EmissionsCache.repository Int) scenario.clientMissing "id"
          scenario.storeUS scenario.reqBoth).trace)[0]? =
        some (uncachedKey (toUncached scenario.rowUK), CacheValue.record scenario.recordMissing,
          originatingFlag scenario.reqBoth.Rows (uncachedKey (toUncached scenario.rowUK))) ∧
      cache.EmissionsCache.stored (uncachedKey (toUncached scenario.rowUK))
          (GetMeasure (cache.EmissionsCache.repository Int) scenario.clientMissing "id"
            scenario.storeUS scenario.reqBoth).store =
        some (CacheValue.record scenario.recordMissing) ∧
      (cache.EmissionsCache.repository Int).Get
          (GetMeasure (cache.EmissionsCache.repository Int) scenario.clientMissing "id"
            scenario.storeUS scenario.reqBoth).store "UK-tv-500-inv-002" =
        some (CacheValue.record scenario.recordMissing) :=
  have h := GetMeasure_missing_coverage (cache.EmissionsCache.repository Int)
    scenario.clientMissing "id" scenario.storeUS scenario.reqBoth (by decide)
    { RequestID := "api-req-003", TotalEmissions := 7, Rows := [scenario.recordMissing] }
    (by decide) 0 (toUncached scenario.rowUK) scenario.recordMissing (by decide) (by decide)
    (by decide)
  ⟨by decide, by decide, h.1,
    h.2.2.1 (cache.EmissionsCache.stored (uncachedKey (toUncached scenario.rowUK)))
      (fun st v p => stored_Set_self _ st v p)
      (fun st k1 v p hk => stored_Set_other _ st k1 v p hk)
      (fun j _ h0 h1 _ => absurd (show j < 1 from h1) (Nat.not_lt.mpr h0)),
    by decide⟩

/-- C9: for every call on a valid batch with at least one miss that returns a
response, the resolver succeeded, and the rows of the response are exactly:
one row per cache hit, in request order, carrying the stored record's
propertyId, propertyName and totalEmissions with `cached = true`; followed by
one row per resolver record, in resolver-response order, each with
`cached = false`. This is not the request order: when the request is a miss
followed by a hit, the first row of the response is the row of the hit. -/
theorem GetMeasure_rows_order {σ F : Type} [Zero F] [Add F]
    (cache : CacheRepository σ F) (client : Scope3Client F) (requestID : String) (s : σ)
    (req : models.MeasureRequest) (hvalid : validRequest req)
    (hmiss : ∃ row ∈ req.Rows, isMiss cache s row = true)
    (resp : models.MeasureResponse F) (err : GoError)
    (hout : (GetMeasure cache client requestID s req).out = Outcome.returned (some resp) err) :
    ∃ apiResponse,
      client.GetEmissions (resolverRequest (missRows cache s req.Rows)) =
        (some apiResponse, GoError.nil) ∧
      resp.Rows =
        req.Rows.filterMap (fun row =>
          match cache.Get s (generateCacheKey row) with
          | some (CacheValue.record stored) =>
            some { PropertyID := stored.Internal.PropertyID
                   PropertyName := stored.Internal.PropertyName
                   TotalEmissions := stored.TotalEmissions
                   Cached := true
                   InventoryCoverage := "" }
          | _ => none) ++
        apiResponse.Rows.map apiRowResponse ∧
      (∀ a ∈ apiResponse.Rows, (apiRowResponse a).Cached = false) ∧
      (∀ r0 r1 stored, req.Rows = [r0, r1] → isMiss cache s r0 = true →
        cache.Get s (generateCacheKey r1) = some (CacheValue.record stored) →
        resp.Rows =
          { PropertyID := stored.Internal.PropertyID
            PropertyName := stored.Internal.PropertyName
            TotalEmissions := stored.TotalEmissions
            Cached := true
            InventoryCoverage := "" } :: apiResponse.Rows.map apiRowResponse) := by
  obtain ⟨row, hrow, hm⟩ := hmiss
  have hne := missRows_ne_nil_of_miss cache s req.Rows row hrow hm
  obtain ⟨apiResponse, hres, _, _, hresp⟩ :=
    GetMeasure_success cache client requestID s req hvalid hne resp err hout
  have hrows : resp.Rows = hitRows cache s req.Rows ++ apiResponse.Rows.map apiRowResponse := by
    rw [hresp]
  refine ⟨apiResponse, hres, hrows, fun a _ => apiRowResponse_cached a, ?_⟩
  intro r0 r1 stored hreq h0 h1
  rw [hrows, hreq]
  have hh : hitRows cache s [r0, r1] = [hitRow stored] := by
    unfold isMiss at h0
    cases hg : cache.Get s (generateCacheKey r0) with
    | none => simp [hitRows, hg, h1]
    | some v =>
      cases v with
      | record r => rw [hg] at h0; exact Bool.noConfusion h0
      | other t => simp [hitRows, hg, h1]
  rw [hh]
  rfl

/-- Witness of C9: the request is the miss `rowUK` followed by the hit
`rowUS`; the response lists the row of `rowUS` first. -/
theorem GetMeasure_rows_order_witness :
    validRequest scenario.reqSwapped ∧
      (∃ row ∈ scenario.reqSwapped.Rows,
        isMiss (cache.EmissionsCache.repository Int) scenario.storeUS row = true) ∧
      (GetMeasure (cache.EmissionsCache.repository Int) scenario.clientUK "id"
          scenario.storeUS scenario.reqSwapped).out =
        Outcome.returned
          (some { RequestID := "id", TotalEmissions := (100 : Int)
                  Rows := [{ PropertyID := 1, PropertyName := "Property 1", TotalEmissions := 60
                             Cached := true, InventoryCoverage := "" },
                           { PropertyID := 2, PropertyName := "Property 2", TotalEmissions := 40
                             Cached := false, InventoryCoverage := "" }] }) GoError.nil ∧
      ∃ apiResponse,
        scenario.clientUK.GetEmissions (resolverRequest
            (missRows (cache.EmissionsCache.repository Int) scenario.storeUS
              scenario.reqSwapped.Rows)) = (some apiResponse, GoError.nil) ∧
          ([{ PropertyID := 1, PropertyName := "Property 1", TotalEmissions := 60
              Cached := true, InventoryCoverage := "" },
            { PropertyID := 2, PropertyName := "Property 2", TotalEmissions := 40
              Cached := false, InventoryCoverage := "" }] :
              List (models.MeasureRowResponse Int)) =
            scenario.reqSwapped.Rows.filterMap (fun row =>
              match (cache.EmissionsCache.repository Int).Get scenario.storeUS
                  (generateCacheKey row) with
              | some (CacheValue.record stored) =>
                some { PropertyID := stored.Internal.PropertyID
                       PropertyName := stored.Internal.PropertyName
                       TotalEmissions := stored.TotalEmissions
                       Cached := true
                       InventoryCoverage := "" }
              | _ => none) ++
            apiResponse.Rows.map apiRowResponse :=
  have hout : (GetMeasure (cache.EmissionsCache.repository Int) scenario.clientUK "id"
        scenario.storeUS scenario.reqSwapped).out =
      Outcome.returned
        (some { RequestID := "id", TotalEmissions := (100 : Int)
                Rows := [{ PropertyID := 1, PropertyName := "Property 1", TotalEmissions := 60
                           Cached := true, InventoryCoverage := "" },
                         { PropertyID := 2, PropertyName := "Property 2", TotalEmissions := 40
                           Cached := false, InventoryCoverage := "" }] }) GoError.nil := by
    decide
  have h := GetMeasure_rows_order (cache.EmissionsCache.repository Int) scenario.clientUK "id"
    scenario.storeUS scenario.reqSwapped (by decide) (by decide) _ GoError.nil hout
  ⟨by decide, by decide, hout, h.elim (fun apiResponse hh => ⟨apiResponse, hh.1, hh.2.1⟩)⟩

/-- C10: for every row, `generateCacheKey` is the country, the channel, the
decimal numeral of impressions and the inventoryId joined by `-` (so the first
row of the tests gets `US-online-1000-inv-001`); it is a function of those
four fields alone, and replacing utcDatetime and isPriority by any values
leaves the key unchanged. -/
theorem generateCacheKey_format :
    (∀ row : models.MeasureRow,
      generateCacheKey row =
        row.Country ++ "-" ++ row.Channel ++ "-" ++ decimal row.Impressions ++ "-" ++
          row.InventoryID) ∧
      generateCacheKey
          { Country := "US", Channel := "online", Impressions := 1000, InventoryID := "inv-001"
            UTCDatetime := "2025-01-01T12:00:00Z", IsPriority := false } =
        "US-online-1000-inv-001" ∧
      (∃ f : String → String → Int → String → String, ∀ row : models.MeasureRow,
        generateCacheKey row = f row.Country row.Channel row.Impressions row.InventoryID) ∧
      (∀ (row : models.MeasureRow) (utcDatetime : String) (isPriority : Bool),
        generateCacheKey { row with UTCDatetime := utcDatetime, IsPriority := isPriority } =
          generateCacheKey row) := by
  refine ⟨?_, by decide, ?_, ?_⟩
  · intro row
    unfold generateCacheKey
    rw [toString_int_eq_decimal]
  · exact ⟨fun country channel impressions inventoryID =>
      country ++ "-" ++ channel ++ "-" ++ toString impressions ++ "-" ++ inventoryID,
      fun row => rfl⟩
  · intro row utcDatetime isPriority
    rfl

/-- C15: `ToHTTPError` maps an error to a status by its type alone: a
ValidationError gives 400 together with the error's own message, an
ExternalError gives 503, an InternalError gives 500, and the nil error or an
error that is not a `ServiceError` gives 500; no other status is returned. -/
theorem ToHTTPError_classes :
    (∀ message err,
      ToHTTPError (GoError.ServiceError ErrorType.ErrorTypeValidation message err) =
        (400, message)) ∧
      (∀ message err,
        (ToHTTPError (GoError.ServiceError ErrorType.ErrorTypeExternal message err)).1 = 503) ∧
      (∀ message err,
        (ToHTTPError (GoError.ServiceError ErrorType.ErrorTypeInternal message err)).1 = 500) ∧
      (∀ text, (ToHTTPError (GoError.other text)).1 = 500) ∧
      (ToHTTPError GoError.nil).1 = 500 ∧
      (∀ err, (ToHTTPError err).1 = 400 ∨ (ToHTTPError err).1 = 503 ∨
        (ToHTTPError err).1 = 500) ∧
      (∀ err, (ToHTTPError err).1 = 400 ↔ hasType ErrorType.ErrorTypeValidation err = true) ∧
      (∀ err, (ToHTTPError err).1 = 503 ↔ hasType ErrorType.ErrorTypeExternal err = true) := by
  refine ⟨fun _ _ => rfl, fun _ _ => rfl, fun _ _ => rfl, fun _ => rfl, rfl, ?_, ?_, ?_⟩
  · intro err
    cases err with
    | nil => exact Or.inr (Or.inr rfl)
    | other t => exact Or.inr (Or.inr rfl)
    | ServiceError ty msg e =>
      cases ty
      · exact Or.inr (Or.inr rfl)
      · exact Or.inl rfl
      · exact Or.inr (Or.inl rfl)
  · intro err
    cases err with
    | nil => simp [ToHTTPError, hasType, StatusInternalServerError]
    | other t => simp [ToHTTPError, hasType, StatusInternalServerError]
    | ServiceError ty msg e =>
      cases ty <;>
        simp [ToHTTPError, hasType, StatusInternalServerError, StatusBadRequest,
          StatusServiceUnavailable]
  · intro err
    cases err with
    | nil => simp [ToHTTPError, hasType, StatusInternalServerError]
    | other t => simp [ToHTTPError, hasType, StatusInternalServerError]
    | ServiceError ty msg e =>
      cases ty <;>
        simp [ToHTTPError, hasType, StatusInternalServerError, StatusBadRequest,
          StatusServiceUnavailable]

/-- C17: the branch "cache key mismatch" of `GetMeasure` is unreachable: the
key rebuilt from every row of the uncached batch is a key of the map of
originating request rows, the write-back loop run on that map and that batch
never ends in a failure, whatever the resolver records, and no call of
`GetMeasure` returns an error of type InternalError. -/
theorem GetMeasure_never_internal {σ F : Type} [Zero F] [Add F]
    (cache : CacheRepository σ F) (client : Scope3Client F) (requestID : String) (s : σ)
    (req : models.MeasureRequest) :
    (∀ u ∈ missRows cache s req.Rows,
      ∃ row, gomap.get (buildOriginalRowsMap req.Rows) (uncachedKey u) = some row) ∧
      (∀ (apiRows : List (scope3.MeasureRowResponse F)) (s1 : σ)
        (modelRows : List (models.MeasureRowResponse F)) (tr : List (Event F)) (err : GoError),
        (processRows cache (buildOriginalRowsMap req.Rows) (missRows cache s req.Rows) 0
          apiRows s1 modelRows tr).exit ≠ LoopExit.failed err) ∧
      hasType ErrorType.ErrorTypeInternal
        (returnedError (GetMeasure cache client requestID s req).out) = false := by
  refine ⟨?_, ?_, ?_⟩
  · intro u hu
    exact Option.isSome_iff_exists.mp (missRows_key_mem cache s req.Rows u hu)
  · intro apiRows s1 modelRows tr err
    rw [processRows_eq cache _ _ (missRows_key_mem cache s req.Rows)]
    simp only
    split_ifs <;> exact fun h => LoopExit.noConfusion h
  · by_cases hvalid : validRequest req
    · rcases GetMeasure_valid_error cache client requestID s req hvalid with h | ⟨e, h⟩
      · rw [h]; rfl
      · rw [h]; rfl
    · obtain ⟨err, ht, heq⟩ := GetMeasure_invalid cache client requestID s req hvalid
      rw [heq]
      cases err with
      | nil => rfl
      | other t => rfl
      | ServiceError ty msg e =>
        cases ty
        · simp [hasType] at ht
        · rfl
        · rfl

/-- C18: when row `i` of the request is invalid and every row before it is
valid, `GetMeasure` returns no response and a ValidationError whose message is
the text of the first failing check of that row, in the order country,
channel, impressions, inventoryId, followed by ` for row ` and the decimal
numeral of `i`. -/
theorem GetMeasure_validation_message {σ F : Type} [Zero F] [Add F]
    (cache : CacheRepository σ F) (client : Scope3Client F) (requestID : String) (s : σ)
    (req : models.MeasureRequest) (i : Nat) (row : models.MeasureRow)
    (hrow : req.Rows[i]? = some row) (hinv : rowInvalid row)
    (hmin : ∀ j r, j < i → req.Rows[j]? = some r → ¬ rowInvalid r) :
    (GetMeasure cache client requestID s req).out =
      Outcome.returned none
        (GoError.ServiceError ErrorType.ErrorTypeValidation
          (firstFailure row ++ " for row " ++ toString i) GoError.nil) := by
  have hv := validateRows_first req.Rows 0 i row hrow hinv hmin
  rw [Nat.zero_add] at hv
  have hne : ¬ req.Rows.length = 0 := by
    intro h0
    rw [List.length_eq_zero.mp h0] at hrow
    simp at hrow
  unfold GetMeasure
  simp only [hne, if_false, hv, NewValidationError]

/-- Witness of C18: the second row has no inventory id; the message names
that field and row 1. -/
theorem GetMeasure_validation_message_witness :
    (({ Rows := [scenario.rowUS, scenario.rowBad] } : models.MeasureRequest).Rows[1]? =
        some scenario.rowBad) ∧
      rowInvalid scenario.rowBad ∧
      (GetMeasure (cache.EmissionsCache.repository Int) scenario.clientUK "id"
          scenario.storeUS { Rows := [scenario.rowUS, scenario.rowBad] }).out =
        Outcome.returned none
          (GoError.ServiceError ErrorType.ErrorTypeValidation
            "inventoryId is required for row 1" GoError.nil) :=
  ⟨rfl, by decide,
    (GetMeasure_validation_message (cache.EmissionsCache.repository Int) scenario.clientUK
      "id" scenario.storeUS { Rows := [scenario.rowUS, scenario.rowBad] } 1 scenario.rowBad
      rfl (by decide)
      (by
        intro j r hj hr
        have hj0 : j = 0 := by omega
        subst hj0
        simp only [List.getElem?_cons_zero, Option.some.injEq] at hr
        subst hr
        decide)).trans (by decide)⟩

/-- C13: for a valid batch, when every row is a hit, or the resolver succeeds
with exactly one record per uncached row, `GetMeasure` returns a response with
exactly one row per request row. Rows with the same key are not coalesced:
the uncached batch has one row per request row that misses the cache. -/
theorem GetMeasure_one_row_per_request_row {σ F : Type} [Zero F] [Add F]
    (cache : CacheRepository σ F) (client : Scope3Client F) (requestID : String) (s : σ)
    (req : models.MeasureRequest) (hvalid : validRequest req)
    (hres : missRows cache s req.Rows = [] ∨
      ∃ apiResponse,
        client.GetEmissions (resolverRequest (missRows cache s req.Rows)) =
          (some apiResponse, GoError.nil) ∧
        apiResponse.Rows.length = (missRows cache s req.Rows).length) :
    (∃ resp,
        (GetMeasure cache client requestID s req).out =
          Outcome.returned (some resp) GoError.nil ∧
        resp.Rows.length = req.Rows.length) ∧
      (missRows cache s req.Rows).length =
        (req.Rows.filter (fun row => isMiss cache s row)).length ∧
      resolverCalls (GetMeasure cache client requestID s req).trace =
        if missRows cache s req.Rows = [] then []
        else [resolverRequest (missRows cache s req.Rows)] := by
  have hsum := hitRows_length_add_missRows_length cache s req.Rows
  refine ⟨?_, by simp [missRows],
    GetMeasure_resolverCalls cache client requestID s req hvalid⟩
  by_cases hmiss : missRows cache s req.Rows = []
  · rw [GetMeasure_allHit cache client requestID s req hvalid hmiss]
    refine ⟨_, rfl, ?_⟩
    rw [hmiss] at hsum
    simpa using hsum
  · rcases hres with h | ⟨apiResponse, hget, hlen⟩
    · exact absurd h hmiss
    · rw [GetMeasure_resolved cache client requestID s req hvalid hmiss apiResponse hget]
      simp only [hlen, le_refl, if_true]
      refine ⟨_, rfl, ?_⟩
      simp only [List.length_append, List.length_map, List.length_zip, hlen, Nat.min_self]
      exact hsum

/-- Witness of C13: the large-request test of the repository, one hundred
identical uncached rows and one hundred resolver records. -/
theorem GetMeasure_one_row_per_request_row_witness :
    validRequest scenario.reqLarge ∧
      (resolverRequest (missRows (cache.EmissionsCache.repository Int) scenario.storeEmpty
        scenario.reqLarge.Rows)).Rows.length = 100 ∧
      ∃ resp,
        (GetMeasure (cache.EmissionsCache.repository Int) scenario.clientLarge "id"
            scenario.storeEmpty scenario.reqLarge).out =
          Outcome.returned (some resp) GoError.nil ∧
        resp.Rows.length = scenario.reqLarge.Rows.length :=
  ⟨by decide, by decide,
    (GetMeasure_one_row_per_request_row (cache.EmissionsCache.repository Int)
      scenario.clientLarge "id" scenario.storeEmpty scenario.reqLarge (by decide)
      (Or.inr ⟨_, rfl, by decide⟩)).1⟩

/-- C20: in every call of `GetMeasure`, with the `EmissionsCache` as the
store, every cache write is under the key of a request row that missed the
cache; a call in which every row is a hit writes nothing and leaves the store
as it was; and the entry of every key that is not the key of a missed row, in
particular of every key that was a hit and of every key that no request row
has, is the same after the call as before it. -/
theorem GetMeasure_frame {F : Type} [Zero F] [Add F]
    (client : Scope3Client F) (requestID : String) (ec : cache.EmissionsCache F)
    (req : models.MeasureRequest) :
    (∀ w ∈ cacheWrites
        (GetMeasure (cache.EmissionsCache.repository F) client requestID ec req).trace,
      ∃ row ∈ req.Rows, isMiss (cache.EmissionsCache.repository F) ec row = true ∧
        w.1 = generateCacheKey row) ∧
      ((∀ row ∈ req.Rows, isMiss (cache.EmissionsCache.repository F) ec row = false) →
        cacheWrites
            (GetMeasure (cache.EmissionsCache.repository F) client requestID ec req).trace = [] ∧
          (GetMeasure (cache.EmissionsCache.repository F) client requestID ec req).store = ec) ∧
      (∀ k, (∀ row ∈ req.Rows, isMiss (cache.EmissionsCache.repository F) ec row = true →
          generateCacheKey row ≠ k) →
        gomap.get (GetMeasure (cache.EmissionsCache.repository F) client requestID ec
            req).store.store.items k = gomap.get ec.store.items k) ∧
      (∀ row ∈ req.Rows, isMiss (cache.EmissionsCache.repository F) ec row = false →
        gomap.get (GetMeasure (cache.EmissionsCache.repository F) client requestID ec
            req).store.store.items (generateCacheKey row) =
          gomap.get ec.store.items (generateCacheKey row)) ∧
      (∀ k, (∀ row ∈ req.Rows, generateCacheKey row ≠ k) →
        gomap.get (GetMeasure (cache.EmissionsCache.repository F) client requestID ec
            req).store.store.items k = gomap.get ec.store.items k) := by
  obtain ⟨ws, hstore, htrace, hws⟩ :=
    GetMeasure_writes (cache.EmissionsCache.repository F) client requestID ec req
  have hkeys : ∀ w ∈ ws, ∃ row ∈ req.Rows,
      isMiss (cache.EmissionsCache.repository F) ec row = true ∧
        w.1 = generateCacheKey row := by
    intro w hw
    obtain ⟨u, hu, hk⟩ := hws w hw
    obtain ⟨row, hrow, hm, hkey⟩ :=
      mem_missRows (cache.EmissionsCache.repository F) ec req.Rows u hu
    exact ⟨row, hrow, hm, hk.trans hkey⟩
  have hframe : ∀ k, (∀ row ∈ req.Rows,
      isMiss (cache.EmissionsCache.repository F) ec row = true → generateCacheKey row ≠ k) →
      gomap.get (GetMeasure (cache.EmissionsCache.repository F) client requestID ec
        req).store.store.items k = gomap.get ec.store.items k := by
    intro k hk
    rw [hstore, (applyWrites_EmissionsCache ws ec k).2.2]
    have hnone : ws.reverse.find? (fun w => decide (w.1 = k)) = none := by
      rw [List.find?_eq_none]
      intro w hw
      obtain ⟨row, hrow, hm, hkey⟩ := hkeys w (by simpa using hw)
      have := hk row hrow hm
      simpa [hkey] using this
    rw [hnone]
  refine ⟨?_, ?_, hframe, ?_, ?_⟩
  · rw [htrace]; exact hkeys
  · intro hall
    have hnil : ws = [] := by
      cases ws with
      | nil => rfl
      | cons w rest =>
        obtain ⟨row, hrow, hm, _⟩ := hkeys w (List.mem_cons_self _ _)
        rw [hall row hrow] at hm
        exact Bool.noConfusion hm
    rw [htrace, hstore, hnil]
    exact ⟨rfl, rfl⟩
  · intro row hrow hhit
    apply hframe
    intro row1 hrow1 hm1 hkey
    have hsame : isMiss (cache.EmissionsCache.repository F) ec row1 =
        isMiss (cache.EmissionsCache.repository F) ec row := by
      unfold isMiss
      rw [hkey]
    rw [hsame, hhit] at hm1
    exact Bool.noConfusion hm1
  · intro k hk
    exact hframe k (fun row hrow _ => hk row hrow)

/-- C16, as stated, fails: with two uncached rows and a resolver that succeeds
with one record, `GetMeasure` returns a one-row response and no error, after
writing the record under the key of the first uncached row; with one uncached
row and a resolver that succeeds with two records, it panics. Neither call
returns an InternalError. -/
theorem GetMeasure_length_mismatch_counterexample :
    validRequest scenario.reqBoth ∧
      (missRows (cache.EmissionsCache.repository Int) scenario.storeEmpty
        scenario.reqBoth.Rows).length = 2 ∧
      scenario.clientUK.GetEmissions (resolverRequest
          (missRows (cache.EmissionsCache.repository Int) scenario.storeEmpty
            scenario.reqBoth.Rows)) =
        (some { RequestID := "api-req-001", TotalEmissions := 40, Rows := [scenario.recordUK] },
          GoError.nil) ∧
      (GetMeasure (cache.EmissionsCache.repository Int) scenario.clientUK "id"
          scenario.storeEmpty scenario.reqBoth).out =
        Outcome.returned
          (some { RequestID := "id", TotalEmissions := (40 : Int)
                  Rows := [{ PropertyID := 2, PropertyName := "Property 2", TotalEmissions := 40
                             Cached := false, InventoryCoverage := "" }] }) GoError.nil ∧
      cacheWrites (GetMeasure (cache.EmissionsCache.repository Int) scenario.clientUK "id"
          scenario.storeEmpty scenario.reqBoth).trace =
        [("US-online-1000-inv-001", CacheValue.record scenario.recordUK, false)] ∧
      failsWith ErrorType.ErrorTypeInternal
        (GetMeasure (cache.EmissionsCache.repository Int) scenario.clientUK "id"
          scenario.storeEmpty scenario.reqBoth).out = false ∧
      (missRows (cache.EmissionsCache.repository Int) scenario.storeUS
        scenario.reqBoth.Rows).length = 1 ∧
      (GetMeasure (cache.EmissionsCache.repository Int) scenario.clientTwo "id"
          scenario.storeUS scenario.reqBoth).out = Outcome.panic := by
  decide

/-- C16, amended: for a valid batch, if the resolver succeeds with fewer
records than the uncached batch has rows, `GetMeasure` does not fail: it pairs
record `i` with uncached row `i` and writes each record under the key of that
row, that is, its `Set` calls are exactly these pairs in order, the store
after the call is the store before it with these `Set` calls made on it, and,
when no later record is paired with a row of the same key, whatever reads the
entry of the key of row `i` reads record `i` after the call; and it returns,
without error, a response made of the hit rows followed by one row per
returned record, which has fewer rows than the request. -/
theorem GetMeasure_fewer_records {σ F : Type} [Zero F] [Add F]
    (cache : CacheRepository σ F) (client : Scope3Client F) (requestID : String) (s : σ)
    (req : models.MeasureRequest) (hvalid : validRequest req)
    (apiResponse : scope3.MeasureResponse F)
    (hres : client.GetEmissions (resolverRequest (missRows cache s req.Rows)) =
      (some apiResponse, GoError.nil))
    (hlen : apiResponse.Rows.length < (missRows cache s req.Rows).length) :
    (GetMeasure cache client requestID s req).out =
        Outcome.returned
          (some { RequestID := requestID
                  TotalEmissions := sumEmissions (hitRows cache s req.Rows ++
                    apiResponse.Rows.map apiRowResponse)
                  Rows := hitRows cache s req.Rows ++ apiResponse.Rows.map apiRowResponse })
          GoError.nil ∧
      (hitRows cache s req.Rows ++ apiResponse.Rows.map apiRowResponse).length <
        req.Rows.length ∧
      cacheWrites (GetMeasure cache client requestID s req).trace =
        List.zipWith (fun u a =>
          (uncachedKey u, CacheValue.record a, originatingFlag req.Rows (uncachedKey u)))
          (missRows cache s req.Rows) apiResponse.Rows ∧
      (GetMeasure cache client requestID s req).store =
        applyWrites cache s
          (List.zipWith (fun u a =>
            (uncachedKey u, CacheValue.record a, originatingFlag req.Rows (uncachedKey u)))
            (missRows cache s req.Rows) apiResponse.Rows) ∧
      (∀ (i : Nat) (u : scope3.MeasureRow) (a : scope3.MeasureRowResponse F)
        (obs : σ → Option (CacheValue F)),
        (missRows cache s req.Rows)[i]? = some u → apiResponse.Rows[i]? = some a →
        (∀ st v p, obs (cache.Set st (uncachedKey u) v p) = some v) →
        (∀ st k1 v p, k1 ≠ uncachedKey u → obs (cache.Set st k1 v p) = obs st) →
        (∀ j u1, i < j → j < apiResponse.Rows.length →
          (missRows cache s req.Rows)[j]? = some u1 → uncachedKey u1 ≠ uncachedKey u) →
        obs (GetMeasure cache client requestID s req).store = some (CacheValue.record a)) ∧
      failsWith ErrorType.ErrorTypeInternal
        (GetMeasure cache client requestID s req).out = false := by
  have hmiss : missRows cache s req.Rows ≠ [] := by
    intro hnil
    rw [hnil] at hlen
    exact Nat.not_lt_zero _ hlen
  have hle : apiResponse.Rows.length ≤ (missRows cache s req.Rows).length := Nat.le_of_lt hlen
  have hsum := hitRows_length_add_missRows_length cache s req.Rows
  have hw := GetMeasure_cacheWrites_resolved cache client requestID s req hvalid hmiss
    apiResponse hres
  have hout : (GetMeasure cache client requestID s req).out =
      Outcome.returned
        (some { RequestID := requestID
                TotalEmissions := sumEmissions (hitRows cache s req.Rows ++
                  apiResponse.Rows.map apiRowResponse)
                Rows := hitRows cache s req.Rows ++ apiResponse.Rows.map apiRowResponse })
        GoError.nil := by
    rw [GetMeasure_resolved cache client requestID s req hvalid hmiss apiResponse hres]
    simp only [hle, if_true, zip_map_snd_of_le apiRowResponse _ _ hle]
  refine ⟨hout, ?_, hw,
    GetMeasure_store_eq cache client requestID s req hvalid hmiss apiResponse hres, ?_, ?_⟩
  · simp only [List.length_append, List.length_map]
    omega
  · intro i u a obs hu ha hset hframe hlast
    exact GetMeasure_readback cache client requestID s req hvalid apiResponse hres i u a hu
      ha obs hset hframe hlast
  · rw [hout]
    rfl

/-- Witness of C16 as amended: two uncached rows and a resolver that returns
one record; the record is paired with the first uncached row and the store
holds it under the key of that row after the call. -/
theorem GetMeasure_fewer_records_witness :
    validRequest scenario.reqBoth ∧
      (([scenario.recordUK] : List (scope3.MeasureRowResponse Int)).length <
        (missRows (cache.EmissionsCache.repository Int) scenario.storeEmpty
          scenario.reqBoth.Rows).length) ∧
      (GetMeasure (cache.EmissionsCache.repository Int) scenario.clientUK "id"
          scenario.storeEmpty scenario.reqBoth).out =
        Outcome.returned
          (some { RequestID := "id"
                  TotalEmissions := sumEmissions
                    (hitRows (cache.EmissionsCache.repository Int) scenario.storeEmpty
                      scenario.reqBoth.Rows ++ [scenario.recordUK].map apiRowResponse)
                  Rows := hitRows (cache.EmissionsCache.repository Int) scenario.storeEmpty
                    scenario.reqBoth.Rows ++ [scenario.recordUK].map apiRowResponse })
          GoError.nil ∧
      cache.EmissionsCache.stored (uncachedKey (toUncached scenario.rowUS))
          (GetMeasure (cache.EmissionsCache.repository Int) scenario.clientUK "id"
            scenario.storeEmpty scenario.reqBoth).store =
        some (CacheValue.record scenario.recordUK) ∧
      (cache.EmissionsCache.repository Int).Get
          (GetMeasure (cache.EmissionsCache.repository Int) scenario.clientUK "id"
            scenario.storeEmpty scenario.reqBoth).store "US-online-1000-inv-001" =
        some (CacheValue.record scenario.recordUK) ∧
      (cache.EmissionsCache.repository Int).Get
          (GetMeasure (cache.EmissionsCache.repository Int) scenario.clientUK "id"
            scenario.storeEmpty scenario.reqBoth).store "UK-tv-500-inv-002" = none :=
  have h := GetMeasure_fewer_records (cache.EmissionsCache.repository Int) scenario.clientUK
    "id" scenario.storeEmpty scenario.reqBoth (by decide)
    { RequestID := "api-req-001", TotalEmissions := 40, Rows := [scenario.recordUK] }
    (by decide) (by decide)
  ⟨by decide, by decide, h.1,
    h.2.2.2.2.1 0 (toUncached scenario.rowUS) scenario.recordUK
      (cache.EmissionsCache.stored (uncachedKey (toUncached scenario.rowUS)))
      (by decide) (by decide)
      (fun st v p => stored_Set_self _ st v p)
      (fun st k1 v p hk => stored_Set_other _ st k1 v p hk)
      (fun j _ h0 h1 _ => absurd (show j < 1 from h1) (Nat.not_lt.mpr h0)),
    by decide, by decide⟩

/-- C14 on the code: a first call resolves the row to a record that carries
the sentinel `missing`, answers with the sentinel row and caches the raw
record; a second call with the same request is a cache hit, and its response
row surfaces the propertyId, the propertyName and the totalEmissions of the
record, without the sentinel. -/
theorem GetMeasure_cached_missing_surfaces :
    (GetMeasure (cache.EmissionsCache.repository Int) scenario.clientMissing "id-1"
        scenario.storeEmpty scenario.reqUS).out =
      Outcome.returned
        (some { RequestID := "id-1", TotalEmissions := (0 : Int)
                Rows := [{ PropertyID := 0, PropertyName := "", TotalEmissions := 0
                           Cached := false, InventoryCoverage := "missing" }] }) GoError.nil ∧
      (cache.EmissionsCache.repository Int).Get
          (GetMeasure (cache.EmissionsCache.repository Int) scenario.clientMissing "id-1"
            scenario.storeEmpty scenario.reqUS).store "US-online-1000-inv-001" =
        some (CacheValue.record scenario.recordMissing) ∧
      (GetMeasure (cache.EmissionsCache.repository Int) scenario.clientDown "id-2"
          (GetMeasure (cache.EmissionsCache.repository Int) scenario.clientMissing "id-1"
            scenario.storeEmpty scenario.reqUS).store scenario.reqUS).out =
        Outcome.returned
          (some { RequestID := "id-2", TotalEmissions := (7 : Int)
                  Rows := [{ PropertyID := 9, PropertyName := "Property 9", TotalEmissions := 7
                             Cached := true, InventoryCoverage := "" }] }) GoError.nil := by
  decide

/-- C12: for the cache store with default TTL `d`, written at time `t0`:
after `Set(key, v, true)`, `Get(key)` returns `v` at every time `t`, however
long after; after `Set(key, v, false)`, `Get(key)` returns `v` while
`t < t0 + d` and absent once `d` has elapsed, whether or not the sweeper has
run; and a `Set` at time `t1` on a key that is already present overwrites the
value and restarts the expiry from `t1`. -/
theorem EmissionsCache_expiry {F : Type} (ec : cache.EmissionsCache F) (key : String)
    (v v1 : CacheValue F) (p : Bool) (t t1 : Int) :
    ((ec.Set key v true).atTime t).Get key = some v ∧
      ((ec.Set key v true).atTime t).swept.Get key = some v ∧
      ((ec.Set key v false).atTime t).Get key =
        (if t < ec.store.now + ec.store.defaultExpiration then some v else none) ∧
      ((ec.Set key v false).atTime t).swept.Get key =
        (if t < ec.store.now + ec.store.defaultExpiration then some v else none) ∧
      ((((ec.Set key v p).atTime t1).Set key v1 true).atTime t).Get key = some v1 ∧
      ((((ec.Set key v p).atTime t1).Set key v1 false).atTime t).Get key =
        (if t < t1 + ec.store.defaultExpiration then some v1 else none) := by
  have h1 := EmissionsCache_Get_after_Set ec key v true t
  have h2 := EmissionsCache_Get_after_Set ec key v false t
  have h3 := EmissionsCache_Get_after_Set ((ec.Set key v p).atTime t1) key v1 true t
  have h4 := EmissionsCache_Get_after_Set ((ec.Set key v p).atTime t1) key v1 false t
  have hnow : ((ec.Set key v p).atTime t1).store.now = t1 := rfl
  have hd : ((ec.Set key v p).atTime t1).store.defaultExpiration =
      ec.store.defaultExpiration := by
    rw [EmissionsCache_Set_eq]; rfl
  rw [hnow, hd] at h4
  simp only [if_true, Bool.false_eq_true, if_false] at h1 h2 h3 h4
  exact ⟨h1.1, h1.2.trans h1.1, h2.1, h2.2.trans h2.1, h3.1, h4.1⟩

/-- C19: for rows whose country and channel contain no `-`, equal keys imply
equal country, channel, impressions and inventoryId; the inventoryId may
contain `-` and impressions may be any integer. -/
theorem generateCacheKey_injective_without_dash (r1 r2 : models.MeasureRow)
    (h1 : noDash r1.Country) (h2 : noDash r1.Channel)
    (h3 : noDash r2.Country) (h4 : noDash r2.Channel)
    (h : generateCacheKey r1 = generateCacheKey r2) :
    r1.Country = r2.Country ∧ r1.Channel = r2.Channel ∧
      r1.Impressions = r2.Impressions ∧ r1.InventoryID = r2.InventoryID := by
  have hd := congrArg String.data h
  rw [generateCacheKey_data, generateCacheKey_data] at hd
  obtain ⟨hco, hrest⟩ := split_at_dash _ _ _ _ h1 h3 hd
  obtain ⟨hch, hrest2⟩ := split_at_dash _ _ _ _ h2 h4 hrest
  obtain ⟨himp, hinv⟩ := toString_int_split _ _ _ _ hrest2
  exact ⟨String.ext hco, String.ext hch, himp, String.ext hinv⟩

/-- Witness of C19: two rows with the same key, an inventoryId that contains
`-`, and different times and priority flags. -/
theorem generateCacheKey_injective_without_dash_witness :
    noDash scenario.rowUKlow.Country ∧ noDash scenario.rowUKlow.Channel ∧
      noDash scenario.rowUK.Country ∧ noDash scenario.rowUK.Channel ∧
      generateCacheKey scenario.rowUKlow = generateCacheKey scenario.rowUK ∧
      (scenario.rowUKlow.Country = scenario.rowUK.Country ∧
        scenario.rowUKlow.Channel = scenario.rowUK.Channel ∧
        scenario.rowUKlow.Impressions = scenario.rowUK.Impressions ∧
        scenario.rowUKlow.InventoryID = scenario.rowUK.InventoryID) :=
  ⟨by decide, by decide, by decide, by decide, by decide,
    generateCacheKey_injective_without_dash scenario.rowUKlow scenario.rowUK (by decide)
      (by decide) (by decide) (by decide) (by decide)⟩

/-- C11, as stated, fails: two rows that differ in country and in channel get
the same key, because the separator `-` may occur inside a field. -/
theorem generateCacheKey_collision :
    generateCacheKey scenario.rowInApp = "US-in-app-1000-inv-001" ∧
      generateCacheKey scenario.rowInAppShifted = "US-in-app-1000-inv-001" ∧
      ¬ (generateCacheKey scenario.rowInApp = generateCacheKey scenario.rowInAppShifted →
        scenario.rowInApp.Country = scenario.rowInAppShifted.Country ∧
          scenario.rowInApp.Channel = scenario.rowInAppShifted.Channel ∧
          scenario.rowInApp.Impressions = scenario.rowInAppShifted.Impressions ∧
          scenario.rowInApp.InventoryID = scenario.rowInAppShifted.InventoryID) := by
  decide

/-- C11, amended: equal keys imply equal country, channel, impressions and
inventoryId for two rows that differ in at most one of these four fields (so
a change to one field alone always changes the key), and for two rows whose
country and channel contain no `-`. -/
theorem generateCacheKey_injective_restricted (r1 r2 : models.MeasureRow)
    (hcase : (noDash r1.Country ∧ noDash r1.Channel ∧ noDash r2.Country ∧ noDash r2.Channel) ∨
      (r1.Channel = r2.Channel ∧ r1.Impressions = r2.Impressions ∧
        r1.InventoryID = r2.InventoryID) ∨
      (r1.Country = r2.Country ∧ r1.Impressions = r2.Impressions ∧
        r1.InventoryID = r2.InventoryID) ∨
      (r1.Country = r2.Country ∧ r1.Channel = r2.Channel ∧
        r1.InventoryID = r2.InventoryID) ∨
      (r1.Country = r2.Country ∧ r1.Channel = r2.Channel ∧
        r1.Impressions = r2.Impressions))
    (h : generateCacheKey r1 = generateCacheKey r2) :
    r1.Country = r2.Country ∧ r1.Channel = r2.Channel ∧
      r1.Impressions = r2.Impressions ∧ r1.InventoryID = r2.InventoryID := by
  have hd := congrArg String.data h
  rw [generateCacheKey_data, generateCacheKey_data] at hd
  rcases hcase with ⟨h1, h2, h3, h4⟩ | ⟨hch, himp, hinv⟩ | ⟨hco, himp, hinv⟩ |
    ⟨hco, hch, hinv⟩ | ⟨hco, hch, himp⟩
  · exact generateCacheKey_injective_of_noDash r1 r2 h1 h2 h3 h4 h
  · rw [hch, himp, hinv] at hd
    exact ⟨String.ext (List.append_cancel_right hd), hch, himp, hinv⟩
  · rw [hco, himp, hinv] at hd
    have h5 := List.append_cancel_left hd
    simp only [List.cons.injEq, true_and] at h5
    exact ⟨hco, String.ext (List.append_cancel_right h5), himp, hinv⟩
  · rw [hco, hch, hinv] at hd
    have h5 := List.append_cancel_left hd
    simp only [List.cons.injEq, true_and] at h5
    have h6 := List.append_cancel_left h5
    simp only [List.cons.injEq, true_and] at h6
    have h7 : (toString r1.Impressions).data = (toString r2.Impressions).data :=
      List.append_cancel_right h6
    exact ⟨hco, hch, toString_int_injective _ _ (String.ext h7), hinv⟩
  · rw [hco, hch, himp] at hd
    have h5 := List.append_cancel_left hd
    simp only [List.cons.injEq, true_and] at h5
    have h6 := List.append_cancel_left h5
    simp only [List.cons.injEq, true_and] at h6
    have h7 := List.append_cancel_left h6
    simp only [List.cons.injEq, true_and] at h7
    exact ⟨hco, hch, himp, String.ext h7⟩

/-- Witness of C11 as amended: two rows whose channel contains `-` and that
differ in no key field. -/
theorem generateCacheKey_injective_restricted_witness :
    (scenario.rowInApp.Channel = scenario.rowInAppLater.Channel ∧
        scenario.rowInApp.Impressions = scenario.rowInAppLater.Impressions ∧
        scenario.rowInApp.InventoryID = scenario.rowInAppLater.InventoryID) ∧
      generateCacheKey scenario.rowInApp = generateCacheKey scenario.rowInAppLater ∧
      (scenario.rowInApp.Country = scenario.rowInAppLater.Country ∧
        scenario.rowInApp.Channel = scenario.rowInAppLater.Channel ∧
        scenario.rowInApp.Impressions = scenario.rowInAppLater.Impressions ∧
        scenario.rowInApp.InventoryID = scenario.rowInAppLater.InventoryID) :=
  ⟨by decide, by decide,
    generateCacheKey_injective_restricted scenario.rowInApp scenario.rowInAppLater
      (Or.inr (Or.inl (by decide))) (by decide)⟩

end service
